import Mathlib

/-!
# Parkitech: booking and ledger engine

A shallow embedding of the booking handler `app.post('/user/book/:id')`, the
cancellation handler `app.post('/user/bookings/:id/cancel')`, the search handler
`app.get('/user/search')` and the ranking function `sortSpaces` of `src/server.js`,
over the tables declared in `src/db.js`.

Conventions of the embedding:
* The handlers carry amounts as rationals (`ℚ`) and every arithmetic expression stands
  for its exact value, the "exact decimal arithmetic" of the pricing rules; `INTEGER`
  columns are `ℤ`. JavaScript numbers and SQLite `REAL` values are binary64 numbers: the
  section on binary64 renders the same expressions with the rounding of each operation,
  and what depends on that rounding is stated of those renderings.
* A nullable column is an `Option`; `COALESCE(c, d)` is `Option.getD c d`.
* A `Date` is its millisecond count (`ℤ`); a text that `new Date` cannot parse is `none`.
* A table is the list of its rows in rowid order. `SELECT ... ` through `db.get` returns
  the first matching row, `UPDATE ... WHERE id = ?` rewrites every matching row.
* Storage failures (the `err` arguments of the callbacks) are not modelled.
* SQLite `LIKE` and JavaScript `Array.prototype.sort` are given by their documented
  behaviour; the great-circle distance is a parameter of the search handler, with values
  in the JavaScript numbers, `NaN` and the infinities included.
-/

namespace Parkitech

/-! ## Tables (`src/db.js`) -/

/-- Row of `users`: the identity columns and the owner ledger columns. -/
structure User where
  id : ℤ
  name : String
  role : String
  total_earnings : Option ℚ
  total_bookings : Option ℤ
  pending_payout : Option ℚ
  completed_payout : Option ℚ
  deriving DecidableEq

/-- Row of `parking_spaces`. -/
structure ParkingSpace where
  id : ℤ
  owner_id : ℤ
  title : String
  address : String
  location_description : String
  vehicle_type : String
  total_slots : ℤ
  available_slots : Option ℤ
  price_per_hour : ℚ
  latitude : Option ℚ
  longitude : Option ℚ
  deriving DecidableEq

/-- Row of `bookings`. `start_time` and `end_time` hold the instant the stored text
parses to under `new Date` (`none` when it does not parse); `booking_date` is the UTC
day number of the start and `refund_date` the instant of the refund. -/
structure Booking where
  id : ℤ
  user_id : ℤ
  parking_space_id : ℤ
  parking_id : Option ℤ
  vehicle_type : Option String
  booking_date : Option ℤ
  start_time : Option ℤ
  end_time : Option ℤ
  total_price : ℚ
  total_amount : Option ℚ
  platform_commission : Option ℚ
  owner_earnings : Option ℚ
  payment_status : Option String
  booking_status : Option String
  refund_amount : Option ℚ
  refund_status : Option String
  refund_date : Option ℤ
  deriving DecidableEq

/-- The database: the three tables. -/
structure Db where
  users : List User
  parking_spaces : List ParkingSpace
  bookings : List Booking
  deriving DecidableEq

/-! ## JavaScript primitives -/

/-- The constant `COMMISSION_RATE = 0.30` (`src/db.js`, line 8). -/
def COMMISSION_RATE : ℚ := 3 / 10

/-- JavaScript `Math.round`: the nearest integer, a tie going up. -/
def mathRound (x : ℚ) : ℤ := Int.floor (x + 1 / 2)

/-- JavaScript `Math.ceil`. -/
def mathCeil (x : ℚ) : ℤ := Int.ceil x

/-- The idiom `Math.round(x * 100) / 100`. -/
def round2 (x : ℚ) : ℚ := (mathRound (x * 100) : ℚ) / 100

/-- The expression `a || b` on a nullable number: `null` and `0` are falsy. -/
def numOr (a : Option ℚ) (b : ℚ) : ℚ :=
  match a with
  | some x => if x = 0 then b else x
  | none => b

/-- The expression `a || b` on a nullable text: `null` and the empty text are falsy. -/
def strOr (a : Option String) (b : String) : String :=
  match a with
  | some s => if s = "" then b else s
  | none => b

/-- Truthiness of a nullable text: `null` and the empty text are falsy. -/
def truthy (a : Option String) : Bool :=
  match a with
  | some s => s ≠ ""
  | none => false

/-- A text field of a request body, as `!field` and `new Date(field)` see it. -/
inductive TimeInput where
  | missing
  | unparsable
  | instant (ms : ℤ)
  deriving DecidableEq

/-- The test `!field`: the field is absent or empty. -/
def TimeInput.falsy : TimeInput → Bool
  | .missing => true
  | _ => false

/-- The value `new Date(field).getTime()`, `none` standing for `NaN`. -/
def TimeInput.getTime : TimeInput → Option ℤ
  | .instant ms => some ms
  | _ => none

/-! ## Pricing (`src/server.js`, lines 375-378) -/

/-- The billed hours `Math.ceil((end - start) / (1000 * 60 * 60))`, in exact arithmetic;
`hoursBinary64` is the same expression with the rounding of binary64. -/
def hours (start stop : ℤ) : ℤ :=
  mathCeil (((stop - start : ℤ) : ℚ) / (1000 * 60 * 60))

/-- The charge `hours * space.price_per_hour`, in exact arithmetic;
`totalAmountBinary64` is the same expression with the rounding of binary64. -/
def totalAmount (hrs : ℤ) (price_per_hour : ℚ) : ℚ := (hrs : ℚ) * price_per_hour

/-- The commission `Math.round(totalAmount * COMMISSION_RATE * 100) / 100`, for a
given rate, in exact arithmetic; `platformCommissionBinary64` is the same expression
with the rounding of binary64. -/
def platformCommission (rate total : ℚ) : ℚ := round2 (total * rate)

/-- The owner's share `Math.round((totalAmount - platformCommission) * 100) / 100`, in
exact arithmetic; `ownerEarningsBinary64` is the same expression with the rounding of
binary64. -/
def ownerEarnings (total commission : ℚ) : ℚ := round2 (total - commission)

/-! ## Booking handler (`src/server.js`, lines 348-428) -/

/-- What the booking handler answers. -/
inductive BookResponse where
  -- Status 404, "Parking space not found."
  | notFound
  -- The form again, with "Please enter start and end time."
  | missingTime
  -- Status 400, "Invalid start or end time."
  | invalidTime
  -- The confirmation view with the new booking's id and amounts (before `toFixed(2)`).
  | confirmed (bookingId : ℤ) (total_price platform_commission owner_earnings : ℚ)
  deriving DecidableEq

/-- The query `SELECT ps.* ... FROM parking_spaces ps JOIN users u ON ps.owner_id = u.id
WHERE ps.id = ?`, first row. -/
def selectSpace (db : Db) (id : ℤ) : Option ParkingSpace :=
  db.parking_spaces.find? (fun ps => ps.id = id ∧ ∃ u ∈ db.users, u.id = ps.owner_id)

/-- The value `this.lastID` of the insert: the `AUTOINCREMENT` key, above every key in the table. -/
def lastID (db : Db) : ℤ := db.bookings.foldl (fun m b => max m b.id) 0 + 1

/-- The `UPDATE users SET ... WHERE id = ?` that credits the owner (lines 400-407), the
sums in exact arithmetic; `creditBinary64` is a sum as the `REAL` column stores it. -/
def creditOwner (owner_id : ℤ) (earnings : ℚ) (u : User) : User :=
  if u.id = owner_id then
    { u with
      pending_payout := some (u.pending_payout.getD 0 + earnings)
      total_earnings := some (u.total_earnings.getD 0 + earnings)
      total_bookings := some (u.total_bookings.getD 0 + 1) }
  else u

/-- The row the booking handler inserts (lines 381-395). -/
def newBooking (bookingId userId : ℤ) (space : ParkingSpace) (start stop : ℤ)
    (total commission earnings : ℚ) : Booking :=
  { id := bookingId
    user_id := userId
    parking_space_id := space.id
    parking_id := some space.id
    vehicle_type := some space.vehicle_type
    booking_date := some (start / 86400000)
    start_time := some start
    end_time := some stop
    total_price := total
    total_amount := some total
    platform_commission := some commission
    owner_earnings := some earnings
    payment_status := some "Paid"
    booking_status := some "Active"
    refund_amount := none
    refund_status := none
    refund_date := none }

/-- The handler `app.post('/user/book/:id')` for the signed-in renter `userId`:
the answer and the database afterwards. -/
def userBook (db : Db) (userId id : ℤ) (start_time end_time : TimeInput) :
    BookResponse × Db :=
  if start_time.falsy || end_time.falsy then
    match selectSpace db id with
    | none => (.notFound, db)
    | some _ => (.missingTime, db)
  else
    match selectSpace db id with
    | none => (.notFound, db)
    | some space =>
      match start_time.getTime, end_time.getTime with
      | some start, some stop =>
        if stop ≤ start then (.invalidTime, db)
        else
          let hrs := hours start stop
          let total := totalAmount hrs space.price_per_hour
          let commission := platformCommission COMMISSION_RATE total
          let earnings := ownerEarnings total commission
          let bookingId := lastID db
          (.confirmed bookingId total commission earnings,
            { db with
              bookings := db.bookings ++
                [newBooking bookingId userId space start stop total commission earnings]
              users := db.users.map (creditOwner space.owner_id earnings) })
      | _, _ => (.invalidTime, db)

/-! ## Cancellation handler (`src/server.js`, lines 453-509) -/

/-- What the cancellation handler answers. -/
inductive CancelResponse where
  -- Status 404, "Booking not found."
  | notFound
  -- Status 400, "This booking cannot be cancelled."
  | invalidState
  -- Status 400, "Invalid booking start time."
  | invalidStartTime
  -- Status 400, "Cannot cancel after start time."
  | tooLate
  -- The redirect to the list of cancelled bookings.
  | cancelled
  deriving DecidableEq

/-- The query `SELECT b.*, ps.total_slots, ps.available_slots, ps.owner_id FROM bookings b
JOIN parking_spaces ps ON b.parking_space_id = ps.id WHERE b.id = ? AND b.user_id = ?`,
first row: the booking with the space it is joined to. -/
def selectBooking (db : Db) (bookingId userId : ℤ) : Option (Booking × ParkingSpace) :=
  db.bookings.findSome? (fun b =>
    if b.id = bookingId ∧ b.user_id = userId then
      (db.parking_spaces.find? (fun ps => ps.id = b.parking_space_id)).map (fun ps => (b, ps))
    else none)

/-- The lead time `(start - now) / (1000 * 60 * 60)`. -/
def hoursBeforeStart (start now : ℤ) : ℚ := ((start - now : ℤ) : ℚ) / (1000 * 60 * 60)

/-- The refund base `booking.total_amount || booking.total_price || 0`. -/
def baseAmount (booking : Booking) : ℚ :=
  numOr booking.total_amount (numOr (some booking.total_price) 0)

/-- The refund tiers (lines 476-478). -/
def refundAmount (hrsBefore base : ℚ) : ℚ :=
  if hrsBefore > 2 then base
  else if hrsBefore > 0 then base * (1 / 2)
  else 0

/-- The label `refundAmount > 0 ? 'Refunded' : booking.payment_status || 'Paid'`. -/
def paymentStatus (refund : ℚ) (booking : Booking) : String :=
  if refund > 0 then "Refunded" else strOr booking.payment_status "Paid"

/-- The `UPDATE bookings SET ... WHERE id = ?` of a cancellation (lines 484-486). -/
def markCancelled (bookingId : ℤ) (refund : ℚ) (refundDate : ℤ) (status : String)
    (b : Booking) : Booking :=
  if b.id = bookingId then
    { b with
      booking_status := some "Cancelled"
      refund_amount := some refund
      refund_status := some "Processed"
      refund_date := some refundDate
      payment_status := some status }
  else b

/-- The `UPDATE parking_spaces SET available_slots = MIN(total_slots,
COALESCE(available_slots, total_slots) + 1) WHERE id = ?` (lines 490-493). -/
def releaseSlot (spaceId : ℤ) (ps : ParkingSpace) : ParkingSpace :=
  if ps.id = spaceId then
    { ps with
      available_slots := some (min ps.total_slots (ps.available_slots.getD ps.total_slots + 1)) }
  else ps

/-- The `UPDATE users SET pending_payout = MAX(0, COALESCE(pending_payout, 0) - ?),
total_earnings = MAX(0, COALESCE(total_earnings, 0) - ?) WHERE id = ?` (lines 496-502),
the differences in exact arithmetic; `reverseBinary64` is one as the `REAL` column
stores it. -/
def reverseOwner (owner_id : ℤ) (earnings : ℚ) (u : User) : User :=
  if u.id = owner_id then
    { u with
      pending_payout := some (max 0 (u.pending_payout.getD 0 - earnings))
      total_earnings := some (max 0 (u.total_earnings.getD 0 - earnings)) }
  else u

/-- The handler `app.post('/user/bookings/:id/cancel')` for the signed-in renter
`userId`; `now` is the clock read at line 469 and `refundDate` the one read at line 480.
The answer and the database afterwards. -/
def userBookingsCancel (db : Db) (userId bookingId now refundDate : ℤ) :
    CancelResponse × Db :=
  match selectBooking db bookingId userId with
  | none => (.notFound, db)
  | some (booking, ps) =>
    if truthy booking.booking_status ∧ booking.booking_status ≠ some "Active" then
      (.invalidState, db)
    else
      match booking.start_time with
      | none => (.invalidStartTime, db)
      | some start =>
        if now ≥ start then (.tooLate, db)
        else
          let refund := refundAmount (hoursBeforeStart start now) (baseAmount booking)
          let status := paymentStatus refund booking
          let earnings := numOr booking.owner_earnings 0
          (.cancelled,
            { bookings := db.bookings.map (markCancelled bookingId refund refundDate status)
              parking_spaces := db.parking_spaces.map (releaseSlot booking.parking_space_id)
              users := db.users.map (reverseOwner ps.owner_id earnings) })

/-! ## The arithmetic in binary64

JavaScript numbers and SQLite `REAL` values are IEEE 754 binary64 numbers, and every
operation on them rounds its exact result to the nearest such number. The handlers above
carry the exact results; this section renders the pricing of lines 375-378 and the two
ledger updates with that rounding, to evaluate the amounts the code stores. Results
beyond the largest finite binary64 number, which become `Infinity`, and the sign of zero
are outside this rendering. -/

/-- The nearest integer, a tie going to the even one. -/
def roundHalfEven (x : ℚ) : ℤ :=
  if x - Int.floor x < 1 / 2 then Int.floor x
  else if 1 / 2 < x - Int.floor x then Int.floor x + 1
  else if Int.floor x % 2 = 0 then Int.floor x
  else Int.floor x + 1

/-- The exponent of the unit in the last place of the binary64 numbers around `x`: the
`e` with `2 ^ (e + 52) ≤ |x| < 2 ^ (e + 53)`, and `-1074` for a subnormal `x`. -/
def ulpExponent (x : ℚ) : ℤ := max (Int.log 2 |x| - 52) (-1074)

/-- The binary64 number nearest to `x`, a tie going to the even significand. -/
def toBinary64 (x : ℚ) : ℚ := (roundHalfEven (x / 2 ^ ulpExponent x) : ℚ) * 2 ^ ulpExponent x

/-- The billed hours of line 375 in binary64: the time values of two valid dates are
integers of at most 8640000000000000 in size, which binary64 holds exactly; their
difference and its quotient by 3600000 are each rounded. -/
def hoursBinary64 (start stop : ℤ) : ℤ :=
  mathCeil (toBinary64 (toBinary64 ((stop - start : ℤ) : ℚ) / (1000 * 60 * 60)))

/-- The charge of line 376 in binary64. -/
def totalAmountBinary64 (hrs : ℤ) (price_per_hour : ℚ) : ℚ :=
  toBinary64 ((hrs : ℚ) * price_per_hour)

/-- The idiom `Math.round(x * 100) / 100` in binary64. -/
def round2Binary64 (x : ℚ) : ℚ :=
  toBinary64 ((mathRound (toBinary64 (x * 100)) : ℚ) / 100)

/-- The commission of line 377 in binary64, for a given rate. -/
def platformCommissionBinary64 (rate total : ℚ) : ℚ := round2Binary64 (toBinary64 (total * rate))

/-- The owner's share of line 378 in binary64. -/
def ownerEarningsBinary64 (total commission : ℚ) : ℚ :=
  round2Binary64 (toBinary64 (total - commission))

/-- The credit `COALESCE(pending_payout, 0) + ?` of lines 402-403 in binary64. -/
def creditBinary64 (balance earnings : ℚ) : ℚ := toBinary64 (balance + earnings)

/-- The reversal `MAX(0, COALESCE(pending_payout, 0) - ?)` of lines 498-499 in binary64. -/
def reverseBinary64 (balance earnings : ℚ) : ℚ := max 0 (toBinary64 (balance - earnings))

/-! ## Search (`src/server.js`, lines 32-59 and 288-335) -/

/-- A JavaScript number as a comparator returns it: a rational, an infinity or `NaN`. -/
inductive JsNumber where
  | nan
  | negInfinity
  | posInfinity
  | finite (q : ℚ)
  deriving DecidableEq

/-- JavaScript subtraction: an infinity minus itself is `NaN`. -/
def JsNumber.sub : JsNumber → JsNumber → JsNumber
  | .finite a, .finite b => .finite (a - b)
  | .finite _, .posInfinity => .negInfinity
  | .finite _, .negInfinity => .posInfinity
  | .posInfinity, .finite _ => .posInfinity
  | .posInfinity, .negInfinity => .posInfinity
  | .negInfinity, .finite _ => .negInfinity
  | .negInfinity, .posInfinity => .negInfinity
  | _, _ => .nan

/-- The test `v > 0`, false on `NaN`. -/
def JsNumber.isPositive : JsNumber → Bool
  | .posInfinity => true
  | .finite q => decide (0 < q)
  | _ => false

/-- JavaScript `Array.prototype.sort(compareFn)`. The language fixes its result for a
consistent comparator: the sort is stable, `a` stays before `b` unless
`compareFn(a, b) > 0`, and a `NaN` from the comparator counts as 0. It is rendered as
the insertion sort for "`compareFn(a, b) > 0` is false". For a comparator that is not
consistent the language leaves the order to the implementation. -/
def arraySort {α : Type} (compareFn : α → α → JsNumber) (l : List α) : List α :=
  l.insertionSort (fun a b => (compareFn a b).isPositive = false)

/-- The test `Number.isNaN(v)`. -/
def JsNumber.isNaN : JsNumber → Bool
  | .nan => true
  | _ => false

/-- The test `v <= q` for a rational `q`, false on `NaN`. -/
def JsNumber.atMost : JsNumber → ℚ → Bool
  | .negInfinity, _ => true
  | .finite d, q => decide (d ≤ q)
  | _, _ => false

/-- Row of the search query: the columns of the space, the name of its owner and the
`distance_km` that `attachDistances` sets: `none` when it is `null` or was never set,
otherwise a JavaScript number, which can be `NaN`. -/
structure SpaceRow extends ParkingSpace where
  owner_name : String
  distance_km : Option JsNumber
  deriving DecidableEq

/-- The function `attachDistances` (lines 32-45). The great-circle distance
`haversineKm` (lines 18-30) is floating-point trigonometry and is kept as a parameter;
it returns a JavaScript number, `NaN` included (as it does for an infinite `lat`, or
when rounding takes its `a` above 1 and `Math.sqrt(1 - a)` is `NaN`). -/
def attachDistances (haversineKm : JsNumber → JsNumber → ℚ → ℚ → JsNumber)
    (spaces : List SpaceRow) (lat lng : JsNumber) : List SpaceRow :=
  spaces.map (fun space =>
    match space.latitude, space.longitude with
    | some latitude, some longitude =>
      { space with distance_km := some (haversineKm lat lng latitude longitude) }
    | _, _ => { space with distance_km := none })

/-- The comparator of `sortSpaces` (lines 48-58). A `distance_km` that is a number,
`NaN` included, is used as it is (`typeof NaN` is `'number'`); a missing one counts as
`Infinity`. -/
def compareSpaces (sortBy : String) (a b : SpaceRow) : JsNumber :=
  if sortBy = "price" then
    JsNumber.sub (.finite (numOr (some a.price_per_hour) 0))
      (.finite (numOr (some b.price_per_hour) 0))
  else if sortBy = "availability" then
    JsNumber.sub (.finite (numOr (b.available_slots.map Int.cast) 0))
      (.finite (numOr (a.available_slots.map Int.cast) 0))
  else
    let da := match a.distance_km with
      | some d => d
      | none => JsNumber.posInfinity
    let dbv := match b.distance_km with
      | some d => d
      | none => JsNumber.posInfinity
    JsNumber.sub da dbv

/-- The function `sortSpaces` (lines 47-59); the array sorted in place is returned. -/
def sortSpaces (spaces : List SpaceRow) (sortBy : String) : List SpaceRow :=
  arraySort (compareSpaces sortBy) spaces

/-- SQLite `LIKE` on the characters of a pattern and of a text: `%` matches any run of
characters, `_` any one character, and any other character matches itself up to the
case of ASCII letters. -/
def likeMatch : List Char → List Char → Bool
  | [], text => text.isEmpty
  | p :: ps, text =>
    if p = '%' then text.tails.any (fun rest => likeMatch ps rest)
    else
      match text with
      | [] => false
      | c :: cs => (p = '_' || p.toLower = c.toLower) && likeMatch ps cs

/-- The SQL condition `text LIKE pattern`. -/
def sqlLike (text pattern : String) : Bool := likeMatch pattern.toList text.toList

/-- A numeric field of a query string, as `!field` and `Number(field)` see it: absent
or empty, or a text with the number it converts to (`NaN` when it is not numeric, an
infinity for the text `Infinity`). -/
inductive NumberInput where
  | missing
  | text (value : JsNumber)
  deriving DecidableEq

/-- The test `!field`: the field is absent or empty. -/
def NumberInput.falsy : NumberInput → Bool
  | .missing => true
  | _ => false

/-- The value `Number(field)`. -/
def NumberInput.toNumber : NumberInput → JsNumber
  | .missing => .nan
  | .text value => value

/-- The query string of a search. -/
structure SearchQuery where
  location : Option String
  vehicle_type : Option String
  user_lat : NumberInput
  user_lng : NumberInput
  sort : Option String

/-- The flag `hasCoords` (lines 291-292). -/
def hasCoords (query : SearchQuery) : Bool :=
  !query.user_lat.falsy && !query.user_lng.falsy &&
    !query.user_lat.toNumber.isNaN && !query.user_lng.toNumber.isNaN

/-- The rows of `parking_spaces ps JOIN users u ON ps.owner_id = u.id`, in the order of
the spaces. -/
def joinOwners (db : Db) : List SpaceRow :=
  db.parking_spaces.flatMap (fun ps =>
    (db.users.filter (fun u => u.id = ps.owner_id)).map (fun u =>
      { toParkingSpace := ps, owner_name := u.name, distance_km := none }))

/-- The `WHERE` clause that the search handler builds (lines 294-308). -/
def searchWhere (query : SearchQuery) (row : SpaceRow) : Bool :=
  (if truthy query.location && !hasCoords query then
      sqlLike row.address ("%" ++ strOr query.location "" ++ "%") ||
        sqlLike row.location_description ("%" ++ strOr query.location "" ++ "%")
    else true) &&
  (if truthy query.vehicle_type then
      decide (row.vehicle_type = strOr query.vehicle_type "") ||
        decide (row.vehicle_type = "both")
    else true)

/-- What the search handler hands to the view. -/
structure SearchResult where
  spaces : List SpaceRow
  nearbyCount : Option ℕ
  hasUserLocation : Bool

/-- The handler `app.get('/user/search')` (lines 288-335). -/
def userSearch (haversineKm : JsNumber → JsNumber → ℚ → ℚ → JsNumber) (db : Db)
    (query : SearchQuery) : SearchResult :=
  let spaces := (joinOwners db).filter (searchWhere query)
  if hasCoords query then
    let spaces := attachDistances haversineKm spaces query.user_lat.toNumber
      query.user_lng.toNumber
    { spaces := sortSpaces spaces (strOr query.sort "distance")
      nearbyCount := some (spaces.filter (fun s =>
        match s.distance_km with
        | some d => d.atMost 10
        | none => false)).length
      hasUserLocation := true }
  else
    { spaces := sortSpaces spaces (strOr query.sort "distance")
      nearbyCount := none
      hasUserLocation := false }

/-! ## Sample data -/

/-- A sample space: 40 per hour, 40 slots, none of them free. -/
def sampleSpace : ParkingSpace :=
  { id := 1, owner_id := 1, title := "Pondy Bazaar", address := "T. Nagar",
    location_description := "Street-side", vehicle_type := "both", total_slots := 40,
    available_slots := some 0, price_per_hour := 40, latitude := none, longitude := none }

/-- A sample database: one owner, one renter, one space at 40 per hour with no free
slot, and no booking yet. -/
def sampleDb : Db :=
  { users :=
      [ { id := 1, name := "Host", role := "client", total_earnings := some 0,
          total_bookings := some 0, pending_payout := some 0, completed_payout := some 0 },
        { id := 2, name := "Renter", role := "user", total_earnings := some 0,
          total_bookings := some 0, pending_payout := some 0, completed_payout := some 0 } ]
    parking_spaces := [sampleSpace]
    bookings := [] }

/-- The booking of the sample space by the renter for 08:00-10:30, as the booking
handler stores it. -/
def sampleBooking : Booking := newBooking 1 2 sampleSpace 28800000 37800000 120 36 84

/-- The sample database after that booking. -/
def bookedDb : Db :=
  { users :=
      [ { id := 1, name := "Host", role := "client", total_earnings := some 84,
          total_bookings := some 1, pending_payout := some 84, completed_payout := some 0 },
        { id := 2, name := "Renter", role := "user", total_earnings := some 0,
          total_bookings := some 0, pending_payout := some 0, completed_payout := some 0 } ]
    parking_spaces := [sampleSpace]
    bookings := [sampleBooking] }

/-- A row as older databases hold it: the sample booking with no `booking_status`. -/
def legacyBooking : Booking := { sampleBooking with booking_status := none }

/-- The sample database holding that row instead. -/
def legacyDb : Db := { bookedDb with bookings := [legacyBooking] }

/-- The sample booking once completed. -/
def completedBooking : Booking := { sampleBooking with booking_status := some "Completed" }

/-- The sample database holding that row instead. -/
def completedDb : Db := { bookedDb with bookings := [completedBooking] }

/-- A booking of a free space: every amount is 0 and there is no `payment_status`. -/
def freeBooking : Booking :=
  { sampleBooking with
    total_price := 0, total_amount := some 0
    platform_commission := some 0, owner_earnings := some 0
    payment_status := none }

/-- The sample database holding that row instead. -/
def freeDb : Db := { bookedDb with bookings := [freeBooking] }

/-- A search row 1 km away. -/
def nearRow : SpaceRow :=
  { toParkingSpace := sampleSpace, owner_name := "Host", distance_km := some (.finite 1) }

/-- A search row 5 km away. -/
def farRow : SpaceRow :=
  { toParkingSpace := { sampleSpace with id := 2 }, owner_name := "Host",
    distance_km := some (.finite 5) }

/-- A search row 2 km away. -/
def twoKmRow : SpaceRow :=
  { toParkingSpace := { sampleSpace with id := 4 }, owner_name := "Host",
    distance_km := some (.finite 2) }

/-- A search row 3 km away. -/
def threeKmRow : SpaceRow :=
  { toParkingSpace := { sampleSpace with id := 5 }, owner_name := "Host",
    distance_km := some (.finite 3) }

/-- A search row whose distance came out as `NaN`. -/
def nanRow : SpaceRow :=
  { toParkingSpace := { sampleSpace with id := 6 }, owner_name := "Host",
    distance_km := some .nan }

/-- A search row of a space without coordinates. -/
def unplacedRow : SpaceRow :=
  { toParkingSpace := { sampleSpace with id := 3 }, owner_name := "Host",
    distance_km := none }

/-- A search for the text `nagar`, without coordinates and without vehicle filter. -/
def nagarQuery : SearchQuery :=
  { location := some "nagar", vehicle_type := none, user_lat := .missing,
    user_lng := .missing, sort := none }

/-! ## Rounding lemmas -/

theorem mathRound_eq {x : ℚ} {k : ℤ} (h₁ : (k : ℚ) ≤ x + 1 / 2) (h₂ : x + 1 / 2 < k + 1) :
    mathRound x = k := by
  unfold mathRound
  exact Int.floor_eq_iff.mpr ⟨h₁, h₂⟩

theorem mathRound_sub_intCast (x : ℚ) (k : ℤ) : mathRound (x - k) = mathRound x - k := by
  unfold mathRound
  rw [show x - (k : ℚ) + 1 / 2 = (x + 1 / 2) - (k : ℚ) by ring]
  exact Int.floor_sub_int _ _

theorem mathRound_bounds (x : ℚ) :
    ((mathRound x : ℤ) : ℚ) ≤ x + 1 / 2 ∧ x - 1 / 2 < ((mathRound x : ℤ) : ℚ) := by
  unfold mathRound
  constructor
  · exact Int.floor_le _
  · have := Int.lt_floor_add_one (x + 1 / 2)
    linarith

theorem mathCeil_eq {x : ℚ} {k : ℤ} (h₁ : (k : ℚ) - 1 < x) (h₂ : x ≤ k) : mathCeil x = k := by
  unfold mathCeil
  exact Int.ceil_eq_iff.mpr ⟨h₁, h₂⟩

theorem hours_eq {start stop k : ℤ} (h₁ : (k - 1) * 3600000 < stop - start)
    (h₂ : stop - start ≤ k * 3600000) : hours start stop = k := by
  unfold hours
  apply mathCeil_eq
  · rw [lt_div_iff₀ (by norm_num)]
    have : (((k - 1) * 3600000 : ℤ) : ℚ) < ((stop - start : ℤ) : ℚ) := by exact_mod_cast h₁
    push_cast at this ⊢
    linarith
  · rw [div_le_iff₀ (by norm_num)]
    have : ((stop - start : ℤ) : ℚ) ≤ ((k * 3600000 : ℤ) : ℚ) := by exact_mod_cast h₂
    push_cast at this ⊢
    linarith

theorem hours_spec (start stop : ℤ) :
    (hours start stop - 1) * 3600000 < stop - start ∧
      stop - start ≤ hours start stop * 3600000 := by
  have h₁ : (((hours start stop : ℤ) : ℚ) - 1) * 3600000 < ((stop - start : ℤ) : ℚ) := by
    have := Int.ceil_lt_add_one (((stop - start : ℤ) : ℚ) / (1000 * 60 * 60))
    have h := (lt_div_iff₀ (by norm_num : (0 : ℚ) < 1000 * 60 * 60)).mp
      (show ((hours start stop : ℤ) : ℚ) - 1 < ((stop - start : ℤ) : ℚ) / (1000 * 60 * 60) by
        unfold hours mathCeil; linarith)
    linarith
  have h₂ : ((stop - start : ℤ) : ℚ) ≤ ((hours start stop : ℤ) : ℚ) * 3600000 := by
    have := Int.le_ceil (((stop - start : ℤ) : ℚ) / (1000 * 60 * 60))
    have h := (div_le_iff₀ (by norm_num : (0 : ℚ) < 1000 * 60 * 60)).mp
      (show ((stop - start : ℤ) : ℚ) / (1000 * 60 * 60) ≤ ((hours start stop : ℤ) : ℚ) by
        unfold hours mathCeil; exact this)
    linarith
  constructor
  · exact_mod_cast h₁
  · exact_mod_cast h₂

/-! ## Pricing -/

/-- In exact arithmetic the split is exact: for every total amount and every commission
rate the two formulas of lines 377-378 add up to the total rounded to hundredths, the
multiple of `0.01` within half a cent of the total, a tie going up. -/
theorem commission_split_exact (rate total : ℚ) :
    platformCommission rate total + ownerEarnings total (platformCommission rate total)
        = round2 total ∧
      ∃ k : ℤ, round2 total = (k : ℚ) / 100 ∧
        total - 1 / 200 < (k : ℚ) / 100 ∧ (k : ℚ) / 100 ≤ total + 1 / 200 := by
  constructor
  · unfold ownerEarnings platformCommission
    unfold round2
    have h : (total - ((mathRound (total * rate * 100) : ℤ) : ℚ) / 100) * 100
        = total * 100 - ((mathRound (total * rate * 100) : ℤ) : ℚ) := by ring
    rw [h, mathRound_sub_intCast]
    push_cast
    ring
  · refine ⟨mathRound (total * 100), rfl, ?_, ?_⟩
    · have := (mathRound_bounds (total * 100)).2
      linarith
    · have := (mathRound_bounds (total * 100)).1
      linarith

/-- In exact arithmetic the billed hours of an interval whose end is after its start are
at least 1, cover the interval, and are below every number of hours that covers it. -/
theorem hours_least (start stop : ℤ) (h : start < stop) :
    1 ≤ hours start stop ∧
      stop - start ≤ hours start stop * 3600000 ∧
      (∀ n : ℤ, stop - start ≤ n * 3600000 → hours start stop ≤ n) := by
  obtain ⟨h₁, h₂⟩ := hours_spec start stop
  refine ⟨?_, h₂, ?_⟩
  · by_contra hc
    have : hours start stop * 3600000 ≤ 0 := by nlinarith
    omega
  · intro n hn
    by_contra hc
    have : n * 3600000 ≤ (hours start stop - 1) * 3600000 := by nlinarith
    omega

theorem round2_eq {x : ℚ} {k : ℤ} (h₁ : (k : ℚ) ≤ x * 100 + 1 / 2)
    (h₂ : x * 100 + 1 / 2 < k + 1) : round2 x = (k : ℚ) / 100 := by
  unfold round2
  rw [mathRound_eq h₁ h₂]

theorem selectSpace_sampleDb : selectSpace sampleDb 1 = some sampleSpace := by
  simp [selectSpace, sampleDb, sampleSpace]

theorem userBook_confirmed (db : Db) (userId id start stop : ℤ) (space : ParkingSpace)
    (hs : selectSpace db id = some space) (h : start < stop) :
    userBook db userId id (.instant start) (.instant stop) =
      (.confirmed (lastID db) (totalAmount (hours start stop) space.price_per_hour)
          (platformCommission COMMISSION_RATE
            (totalAmount (hours start stop) space.price_per_hour))
          (ownerEarnings (totalAmount (hours start stop) space.price_per_hour)
            (platformCommission COMMISSION_RATE
              (totalAmount (hours start stop) space.price_per_hour))),
        { db with
          bookings := db.bookings ++
            [newBooking (lastID db) userId space start stop
              (totalAmount (hours start stop) space.price_per_hour)
              (platformCommission COMMISSION_RATE
                (totalAmount (hours start stop) space.price_per_hour))
              (ownerEarnings (totalAmount (hours start stop) space.price_per_hour)
                (platformCommission COMMISSION_RATE
                  (totalAmount (hours start stop) space.price_per_hour)))]
          users := db.users.map (creditOwner space.owner_id
            (ownerEarnings (totalAmount (hours start stop) space.price_per_hour)
              (platformCommission COMMISSION_RATE
                (totalAmount (hours start stop) space.price_per_hour)))) }) := by
  simp [userBook, hs, TimeInput.falsy, TimeInput.getTime, not_le.mpr h]

/-! ## Cancellation -/

theorem markCancelled_keys (bookingId : ℤ) (refund : ℚ) (refundDate : ℤ) (status : String)
    (b : Booking) :
    (markCancelled bookingId refund refundDate status b).id = b.id ∧
      (markCancelled bookingId refund refundDate status b).user_id = b.user_id ∧
      (markCancelled bookingId refund refundDate status b).parking_space_id
        = b.parking_space_id := by
  unfold markCancelled
  split <;> simp

theorem releaseSlot_id (spaceId : ℤ) (ps : ParkingSpace) : (releaseSlot spaceId ps).id = ps.id := by
  unfold releaseSlot
  split <;> simp

theorem find?_map_releaseSlot (spaceId id : ℤ) (l : List ParkingSpace) :
    (l.map (releaseSlot spaceId)).find? (fun ps => ps.id = id)
      = (l.find? (fun ps => ps.id = id)).map (releaseSlot spaceId) := by
  induction l with
  | nil => rfl
  | cons a t ih =>
    simp only [List.map_cons, List.find?_cons, releaseSlot_id]
    split
    · rfl
    · exact ih

/-- The lookup of the cancellation handler, after the updates of a cancellation: the
same row is found, as rewritten. -/
theorem selectBooking_after (db : Db) (us : List User) (bookingId userId spaceId : ℤ)
    (fb : Booking → Booking)
    (hfb : ∀ b, (fb b).id = b.id ∧ (fb b).user_id = b.user_id ∧
      (fb b).parking_space_id = b.parking_space_id) :
    selectBooking
        { users := us
          parking_spaces := db.parking_spaces.map (releaseSlot spaceId)
          bookings := db.bookings.map fb } bookingId userId
      = (selectBooking db bookingId userId).map
          (fun p => (fb p.1, releaseSlot spaceId p.2)) := by
  unfold selectBooking
  simp only [find?_map_releaseSlot]
  induction db.bookings with
  | nil => rfl
  | cons a t ih =>
    simp only [List.map_cons, List.findSome?_cons, (hfb a).1, (hfb a).2.1, (hfb a).2.2]
    by_cases hk : a.id = bookingId ∧ a.user_id = userId
    · simp only [hk, and_self, if_true]
      cases hf : List.find? (fun ps => decide (ps.id = a.parking_space_id)) db.parking_spaces with
      | none => simpa using ih
      | some ps => simp
    · simp only [hk, if_false]
      exact ih

/-- The cancellation handler on a booking it finds, whose status lets it through, whose
start parses and lies ahead: the answer and the three updates. -/
theorem userBookingsCancel_cancelled (db : Db) (userId bookingId now refundDate start : ℤ)
    (booking : Booking) (ps : ParkingSpace)
    (hsel : selectBooking db bookingId userId = some (booking, ps))
    (hst : ¬ (truthy booking.booking_status ∧ booking.booking_status ≠ some "Active"))
    (hstart : booking.start_time = some start) (hnow : now < start) :
    userBookingsCancel db userId bookingId now refundDate =
      (.cancelled,
        { bookings := db.bookings.map (markCancelled bookingId
            (refundAmount (hoursBeforeStart start now) (baseAmount booking)) refundDate
            (paymentStatus (refundAmount (hoursBeforeStart start now) (baseAmount booking))
              booking))
          parking_spaces := db.parking_spaces.map (releaseSlot booking.parking_space_id)
          users := db.users.map (reverseOwner ps.owner_id (numOr booking.owner_earnings 0)) }) := by
  unfold userBookingsCancel
  simp only [hsel, hstart]
  rw [if_neg hst, if_neg (not_le.mpr hnow)]

theorem selectBooking_id (db : Db) (bookingId userId : ℤ) (booking : Booking)
    (ps : ParkingSpace) (hsel : selectBooking db bookingId userId = some (booking, ps)) :
    booking.id = bookingId ∧ booking.user_id = userId ∧ ps.id = booking.parking_space_id ∧
      booking ∈ db.bookings ∧ ps ∈ db.parking_spaces := by
  unfold selectBooking at hsel
  obtain ⟨b, hb, hsome⟩ := List.exists_of_findSome?_eq_some hsel
  by_cases hk : b.id = bookingId ∧ b.user_id = userId
  · rw [if_pos hk] at hsome
    cases hf : List.find? (fun ps => decide (ps.id = b.parking_space_id)) db.parking_spaces with
    | none => rw [hf] at hsome; simp at hsome
    | some s =>
      rw [hf] at hsome
      simp only [Option.map_some', Option.some.injEq, Prod.mk.injEq] at hsome
      obtain ⟨rfl, rfl⟩ := hsome
      have h1 := List.find?_some hf
      have h2 := List.mem_of_find?_eq_some hf
      simp only [decide_eq_true_eq] at h1
      exact ⟨hk.1, hk.2, h1, hb, h2⟩
  · rw [if_neg hk] at hsome
    simp at hsome

/-- After a cancellation the lookup of the handler finds the booking as rewritten by
the cancellation, joined to its space with the slot released. -/
theorem selectBooking_cancelled (db : Db) (userId bookingId now refundDate start : ℤ)
    (booking : Booking) (ps : ParkingSpace)
    (hsel : selectBooking db bookingId userId = some (booking, ps))
    (hst : ¬ (truthy booking.booking_status ∧ booking.booking_status ≠ some "Active"))
    (hstart : booking.start_time = some start) (hnow : now < start) :
    (userBookingsCancel db userId bookingId now refundDate).1 = .cancelled ∧
      selectBooking (userBookingsCancel db userId bookingId now refundDate).2 bookingId userId
        = some
          ({ booking with
              booking_status := some "Cancelled"
              refund_amount := some (refundAmount (hoursBeforeStart start now) (baseAmount booking))
              refund_status := some "Processed"
              refund_date := some refundDate
              payment_status := some (paymentStatus
                (refundAmount (hoursBeforeStart start now) (baseAmount booking)) booking) },
            releaseSlot booking.parking_space_id ps) := by
  rw [userBookingsCancel_cancelled db userId bookingId now refundDate start booking ps
    hsel hst hstart hnow]
  refine ⟨rfl, ?_⟩
  simp only
  rw [selectBooking_after db _ bookingId userId booking.parking_space_id _
    (markCancelled_keys bookingId _ refundDate _), hsel]
  simp [markCancelled, (selectBooking_id db bookingId userId booking ps hsel).1]

theorem active_passes (booking : Booking) (hact : booking.booking_status = some "Active") :
    ¬ (truthy booking.booking_status ∧ booking.booking_status ≠ some "Active") := by
  simp [hact]

theorem hoursBeforeStart_pos {start now : ℤ} (h : now < start) :
    0 < hoursBeforeStart start now := by
  unfold hoursBeforeStart
  have : (0 : ℚ) < ((start - now : ℤ) : ℚ) := by exact_mod_cast sub_pos.mpr h
  positivity

theorem hoursBeforeStart_gt_two_iff (start now : ℤ) :
    hoursBeforeStart start now > 2 ↔ 7200000 < start - now := by
  unfold hoursBeforeStart
  rw [gt_iff_lt, lt_div_iff₀ (by norm_num)]
  constructor
  · intro h
    have : ((7200000 : ℤ) : ℚ) < ((start - now : ℤ) : ℚ) := by push_cast at h ⊢; linarith
    exact_mod_cast this
  · intro h
    have : ((7200000 : ℤ) : ℚ) < ((start - now : ℤ) : ℚ) := by exact_mod_cast h
    push_cast at this ⊢
    linarith

theorem selectBooking_bookedDb : selectBooking bookedDb 1 2 = some (sampleBooking, sampleSpace) := by
  simp [selectBooking, bookedDb, sampleBooking, newBooking, sampleSpace]

/-- Every answer of the cancellation handler other than the redirect leaves the
database as it was. -/
theorem userBookingsCancel_rejected (db : Db) (userId bookingId now refundDate : ℤ)
    (h : (userBookingsCancel db userId bookingId now refundDate).1 ≠ .cancelled) :
    (userBookingsCancel db userId bookingId now refundDate).2 = db := by
  unfold userBookingsCancel at h ⊢
  split
  · rfl
  · split
    · rfl
    · split
      · rfl
      · split
        · rfl
        · rename_i hsel _ _ hstart _
          simp [hsel, hstart, *] at h

/-- A cancellation that went through found the booking, let its status pass, parsed its
start and read the clock before it. -/
theorem userBookingsCancel_cancelled_inv (db : Db) (userId bookingId now refundDate : ℤ)
    (h : (userBookingsCancel db userId bookingId now refundDate).1 = .cancelled) :
    ∃ (booking : Booking) (ps : ParkingSpace) (start : ℤ),
      selectBooking db bookingId userId = some (booking, ps) ∧
      ¬ (truthy booking.booking_status ∧ booking.booking_status ≠ some "Active") ∧
      booking.start_time = some start ∧ now < start := by
  unfold userBookingsCancel at h
  split at h
  · simp at h
  · rename_i booking ps hsel
    split at h
    · simp at h
    · rename_i hst
      split at h
      · simp at h
      · rename_i start hstart
        split at h
        · simp at h
        · rename_i hnow
          exact ⟨booking, ps, start, hsel, hst, hstart, not_le.mp hnow⟩

/-- The booking handler keeps the amounts of `bookings` in step: the row it inserts
carries one value in `total_price` and in `total_amount` (lines 392-393), and it rewrites
no other row. -/
theorem userBook_amounts (db : Db) (userId id : ℤ) (start_time end_time : TimeInput)
    (hrows : ∀ b ∈ db.bookings, b.total_amount = none ∨ b.total_amount = some b.total_price) :
    ∀ b ∈ (userBook db userId id start_time end_time).2.bookings,
      b.total_amount = none ∨ b.total_amount = some b.total_price := by
  unfold userBook
  split
  · split <;> exact hrows
  · split
    · exact hrows
    · split
      · split
        · exact hrows
        · intro b hb
          simp only [List.mem_append, List.mem_singleton] at hb
          rcases hb with hb | rfl
          · exact hrows b hb
          · exact Or.inr rfl
      · exact hrows

/-- The cancellation handler keeps the amounts of `bookings` in step: its update of the
booking writes neither `total_price` nor `total_amount`. -/
theorem userBookingsCancel_amounts (db : Db) (userId bookingId now refundDate : ℤ)
    (hrows : ∀ b ∈ db.bookings, b.total_amount = none ∨ b.total_amount = some b.total_price) :
    ∀ b ∈ (userBookingsCancel db userId bookingId now refundDate).2.bookings,
      b.total_amount = none ∨ b.total_amount = some b.total_price := by
  by_cases h : (userBookingsCancel db userId bookingId now refundDate).1 = .cancelled
  · obtain ⟨booking, ps, start, hsel, hst, hstart, hnow⟩ :=
      userBookingsCancel_cancelled_inv db userId bookingId now refundDate h
    rw [userBookingsCancel_cancelled db userId bookingId now refundDate start booking ps
      hsel hst hstart hnow]
    intro b hb
    simp only [List.mem_map] at hb
    obtain ⟨a, ha, rfl⟩ := hb
    have := hrows a ha
    unfold markCancelled
    split <;> exact this
  · rw [userBookingsCancel_rejected db userId bookingId now refundDate h]
    exact hrows

/-- On a row whose `total_amount` is a `T` equal to its `total_price`, the refund base
`booking.total_amount || booking.total_price || 0` is `T`, zero or not. -/
theorem baseAmount_eq (booking : Booking) (T : ℚ) (hT : booking.total_amount = some T)
    (hrow : booking.total_amount = none ∨ booking.total_amount = some booking.total_price) :
    baseAmount booking = T := by
  have hp : booking.total_price = T := by
    rcases hrow with h | h
    · rw [hT] at h; simp at h
    · rw [hT] at h; exact (Option.some.inj h).symm
  unfold baseAmount
  rw [hT, hp]
  by_cases h0 : T = 0
  · subst h0; simp [numOr]
  · simp [numOr, h0]

/-- Claim C4. Refund tiers: for every Active booking with `total_amount` `T`, found for
its renter and cancelled strictly before its start, the cancel goes through and the
stored refund is `T` when the lead time exceeds 2 hours and `T * 0.5` when it is at most
2 hours (exactly 2 hours gives 50%). The table is one the code can hold: in every row
`total_amount` is missing, as the migration of `db.js` leaves it on older rows, or equal
to `total_price`, as the booking handler writes it; the empty table is such a table, and
both handlers keep it such whatever the request. With `T = 120`, 3 hours ahead refunds
120 and 1 hour ahead refunds 60. -/
theorem refund_tiers (db : Db) (userId bookingId now refundDate start : ℤ)
    (booking : Booking) (ps : ParkingSpace) (T : ℚ)
    (hrows : ∀ b ∈ db.bookings, b.total_amount = none ∨ b.total_amount = some b.total_price)
    (hsel : selectBooking db bookingId userId = some (booking, ps))
    (hact : booking.booking_status = some "Active")
    (hT : booking.total_amount = some T)
    (hstart : booking.start_time = some start) (hnow : now < start) :
    (∃ (booking' : Booking) (ps' : ParkingSpace),
      (userBookingsCancel db userId bookingId now refundDate).1 = .cancelled ∧
      selectBooking (userBookingsCancel db userId bookingId now refundDate).2 bookingId userId
        = some (booking', ps') ∧
      0 < hoursBeforeStart start now ∧
      (hoursBeforeStart start now > 2 → booking'.refund_amount = some T) ∧
      (hoursBeforeStart start now ≤ 2 → booking'.refund_amount = some (T * (1 / 2)))) ∧
      (∀ (userId' id' : ℤ) (start_time end_time : TimeInput),
        ∀ b ∈ (userBook db userId' id' start_time end_time).2.bookings,
          b.total_amount = none ∨ b.total_amount = some b.total_price) ∧
      (∀ (userId' bookingId' now' refundDate' : ℤ),
        ∀ b ∈ (userBookingsCancel db userId' bookingId' now' refundDate').2.bookings,
          b.total_amount = none ∨ b.total_amount = some b.total_price) ∧
      refundAmount (hoursBeforeStart 10800000 0) 120 = 120 ∧
      refundAmount (hoursBeforeStart 3600000 0) 120 = 60 ∧
      refundAmount (hoursBeforeStart 7200000 0) 120 = 60 := by
  obtain ⟨h₁, h₂⟩ := selectBooking_cancelled db userId bookingId now refundDate start booking ps
    hsel (active_passes booking hact) hstart hnow
  have hpos := hoursBeforeStart_pos hnow
  have hbase : baseAmount booking = T :=
    baseAmount_eq booking T hT
      (hrows booking (selectBooking_id db bookingId userId booking ps hsel).2.2.2.1)
  refine ⟨⟨_, _, h₁, h₂, hpos, ?_, ?_⟩, ?_, ?_, ?_, ?_, ?_⟩
  · intro h
    simp [refundAmount, h, hbase]
  · intro h
    simp [refundAmount, not_lt.mpr h, hpos, hbase]
  · intro userId' id' start_time end_time
    exact userBook_amounts db userId' id' start_time end_time hrows
  · intro userId' bookingId' now' refundDate'
    exact userBookingsCancel_amounts db userId' bookingId' now' refundDate' hrows
  · have : hoursBeforeStart 10800000 0 > 2 := (hoursBeforeStart_gt_two_iff _ _).mpr (by norm_num)
    simp [refundAmount, this]
  · have h2 : ¬ hoursBeforeStart 3600000 0 > 2 := by
      rw [hoursBeforeStart_gt_two_iff]; norm_num
    have hp : hoursBeforeStart 3600000 0 > 0 := hoursBeforeStart_pos (by norm_num)
    rw [refundAmount, if_neg h2, if_pos hp]
    norm_num
  · have h2 : ¬ hoursBeforeStart 7200000 0 > 2 := by
      rw [hoursBeforeStart_gt_two_iff]; norm_num
    have hp : hoursBeforeStart 7200000 0 > 0 := hoursBeforeStart_pos (by norm_num)
    rw [refundAmount, if_neg h2, if_pos hp]
    norm_num

/-- The sample booking, as the booking handler stored it with a total of 120, cancelled
3 hours ahead: the refund stored on it is 120. -/
theorem refund_tiers_witness :
    (∀ b ∈ bookedDb.bookings, b.total_amount = none ∨ b.total_amount = some b.total_price) ∧
      selectBooking bookedDb 1 2 = some (sampleBooking, sampleSpace) ∧
      sampleBooking.booking_status = some "Active" ∧
      sampleBooking.total_amount = some 120 ∧
      sampleBooking.start_time = some 28800000 ∧ (18000000 : ℤ) < 28800000 ∧
      hoursBeforeStart 28800000 18000000 > 2 ∧
      ∃ (booking' : Booking) (ps' : ParkingSpace),
        (userBookingsCancel bookedDb 2 1 18000000 18000000).1 = .cancelled ∧
        selectBooking (userBookingsCancel bookedDb 2 1 18000000 18000000).2 1 2
          = some (booking', ps') ∧
        booking'.refund_amount = some 120 := by
  have hrows : ∀ b ∈ bookedDb.bookings,
      b.total_amount = none ∨ b.total_amount = some b.total_price := by
    intro b hb
    simp only [bookedDb, List.mem_singleton] at hb
    subst hb
    exact Or.inr rfl
  have hgt : hoursBeforeStart 28800000 18000000 > 2 :=
    (hoursBeforeStart_gt_two_iff _ _).mpr (by norm_num)
  obtain ⟨booking', ps', h₁, h₂, _, h₃, _⟩ :=
    (refund_tiers bookedDb 2 1 18000000 18000000 28800000 sampleBooking sampleSpace 120
      hrows selectBooking_bookedDb rfl rfl rfl (by decide)).1
  exact ⟨hrows, selectBooking_bookedDb, rfl, rfl, rfl, by decide, hgt,
    booking', ps', h₁, h₂, h₃ hgt⟩

/-- Claim C5. TooLate rejection: for every Active booking that the handler finds for the
caller, cancel answers TooLate if and only if the clock has reached the start time (the
stored start parses to an instant `≤ now`); and a cancel that is rejected, with TooLate
or any other error, leaves the whole database unchanged: bookings, slots and ledgers. -/
theorem too_late_rejection (db : Db) (userId bookingId now refundDate : ℤ)
    (booking : Booking) (ps : ParkingSpace)
    (hsel : selectBooking db bookingId userId = some (booking, ps))
    (hact : booking.booking_status = some "Active") :
    ((userBookingsCancel db userId bookingId now refundDate).1 = .tooLate ↔
        ∃ start : ℤ, booking.start_time = some start ∧ start ≤ now) ∧
      ((userBookingsCancel db userId bookingId now refundDate).1 = .tooLate →
        (userBookingsCancel db userId bookingId now refundDate).2 = db) ∧
      ((userBookingsCancel db userId bookingId now refundDate).1 ≠ .cancelled →
        (userBookingsCancel db userId bookingId now refundDate).2 = db) := by
  refine ⟨?_, ?_, userBookingsCancel_rejected db userId bookingId now refundDate⟩
  · unfold userBookingsCancel
    simp only [hsel]
    rw [if_neg (active_passes booking hact)]
    cases hstart : booking.start_time with
    | none => simp
    | some start =>
      by_cases hnow : now ≥ start
      · simp [hnow]
      · simp only [if_neg hnow]
        simp
        omega
  · intro h
    apply userBookingsCancel_rejected
    rw [h]
    simp

/-- The sample booking cancelled at its start time: TooLate, database unchanged. -/
theorem too_late_rejection_witness :
    selectBooking bookedDb 1 2 = some (sampleBooking, sampleSpace) ∧
      sampleBooking.booking_status = some "Active" ∧
      (userBookingsCancel bookedDb 2 1 28800000 28800000).1 = .tooLate ∧
      (userBookingsCancel bookedDb 2 1 28800000 28800000).2 = bookedDb :=
  ⟨selectBooking_bookedDb, rfl,
    (too_late_rejection bookedDb 2 1 28800000 28800000 sampleBooking sampleSpace
      selectBooking_bookedDb rfl).1.mpr ⟨28800000, rfl, le_refl _⟩,
    (too_late_rejection bookedDb 2 1 28800000 28800000 sampleBooking sampleSpace
      selectBooking_bookedDb rfl).2.1
      ((too_late_rejection bookedDb 2 1 28800000 28800000 sampleBooking sampleSpace
        selectBooking_bookedDb rfl).1.mpr ⟨28800000, rfl, le_refl _⟩)⟩

/-- Claim C6. No double reversal: once a cancel of a booking has gone through, every
further cancel of that booking by its renter, at any time, answers InvalidState and
leaves the database exactly as the first cancel left it: ledgers, slots and the
booking's refund fields. -/
theorem no_double_reversal (db : Db) (userId bookingId now refundDate now' refundDate' : ℤ)
    (h : (userBookingsCancel db userId bookingId now refundDate).1 = .cancelled) :
    userBookingsCancel (userBookingsCancel db userId bookingId now refundDate).2
        userId bookingId now' refundDate'
      = (.invalidState, (userBookingsCancel db userId bookingId now refundDate).2) := by
  obtain ⟨booking, ps, start, hsel, hst, hstart, hnow⟩ :=
    userBookingsCancel_cancelled_inv db userId bookingId now refundDate h
  obtain ⟨_, h₂⟩ := selectBooking_cancelled db userId bookingId now refundDate start booking ps
    hsel hst hstart hnow
  generalize (userBookingsCancel db userId bookingId now refundDate).2 = db' at h₂ ⊢
  unfold userBookingsCancel
  simp only [h₂]
  rw [if_pos]
  refine ⟨by simp [truthy], by simp⟩

theorem cancel_bookedDb :
    (userBookingsCancel bookedDb 2 1 18000000 18000000).1 = .cancelled :=
  (selectBooking_cancelled bookedDb 2 1 18000000 18000000 28800000 sampleBooking sampleSpace
    selectBooking_bookedDb (active_passes _ rfl) rfl (by decide)).1

/-- The sample booking cancelled twice: the second cancel answers InvalidState. -/
theorem no_double_reversal_witness :
    (userBookingsCancel bookedDb 2 1 18000000 18000000).1 = .cancelled ∧
      userBookingsCancel (userBookingsCancel bookedDb 2 1 18000000 18000000).2 2 1
          18000001 18000002
        = (.invalidState, (userBookingsCancel bookedDb 2 1 18000000 18000000).2) :=
  ⟨cancel_bookedDb, no_double_reversal bookedDb 2 1 18000000 18000000 18000001 18000002
    cancel_bookedDb⟩

theorem forall₂_map_self {α : Type} (R : α → α → Prop) (f : α → α) (l : List α)
    (h : ∀ a ∈ l, R a (f a)) : List.Forall₂ R l (l.map f) := by
  induction l with
  | nil => exact List.Forall₂.nil
  | cons a t ih =>
    exact List.Forall₂.cons (h a (List.mem_cons_self a t))
      (ih (fun b hb => h b (List.mem_cons_of_mem a hb)))

theorem numOr_zero (a : Option ℚ) : numOr a 0 = a.getD 0 := by
  cases a with
  | none => rfl
  | some x =>
    by_cases h : x = 0
    · simp [numOr, h]
    · simp [numOr, h]

/-- Claim C7. Slot release cap: a cancel that goes through rewrites the space of the
booking to `available_slots = min(total_slots, old + 1)`, a missing old value read as
`total_slots`, and leaves every other space as it was; so the released space never ends
above `total_slots` (a space at capacity stays at capacity), and if no space held more
free slots than `total_slots` before, none does afterwards. -/
theorem slot_release_cap (db : Db) (userId bookingId now refundDate : ℤ)
    (booking : Booking) (ps : ParkingSpace)
    (hsel : selectBooking db bookingId userId = some (booking, ps))
    (h : (userBookingsCancel db userId bookingId now refundDate).1 = .cancelled) :
    List.Forall₂
        (fun s s' : ParkingSpace =>
          s'.id = s.id ∧ s'.total_slots = s.total_slots ∧
            (s.id = booking.parking_space_id →
              s'.available_slots
                  = some (min s.total_slots (s.available_slots.getD s.total_slots + 1)) ∧
                (∀ a : ℤ, s'.available_slots = some a → a ≤ s'.total_slots) ∧
                (s.available_slots = some s.total_slots →
                  s'.available_slots = some s.total_slots)) ∧
            (s.id ≠ booking.parking_space_id → s' = s))
        db.parking_spaces (userBookingsCancel db userId bookingId now refundDate).2.parking_spaces ∧
      ((∀ s ∈ db.parking_spaces, ∀ a : ℤ, s.available_slots = some a → a ≤ s.total_slots) →
        ∀ s ∈ (userBookingsCancel db userId bookingId now refundDate).2.parking_spaces,
          ∀ a : ℤ, s.available_slots = some a → a ≤ s.total_slots) ∧
      ps ∈ db.parking_spaces ∧ ps.id = booking.parking_space_id := by
  obtain ⟨booking₀, ps₀, start, hsel₀, hst, hstart, hnow⟩ :=
    userBookingsCancel_cancelled_inv db userId bookingId now refundDate h
  rw [hsel] at hsel₀
  obtain ⟨rfl, rfl⟩ : booking = booking₀ ∧ ps = ps₀ := by simpa using hsel₀
  have hid := selectBooking_id db bookingId userId booking ps hsel
  rw [userBookingsCancel_cancelled db userId bookingId now refundDate start booking ps
    hsel hst hstart hnow]
  refine ⟨?_, ?_, hid.2.2.2.2, hid.2.2.1⟩
  · apply forall₂_map_self
    intro s _
    unfold releaseSlot
    by_cases hs : s.id = booking.parking_space_id
    · rw [if_pos hs]
      refine ⟨rfl, rfl, fun _ => ⟨rfl, ?_, ?_⟩, fun hne => absurd hs hne⟩
      · intro a ha
        simp only [Option.some.injEq] at ha
        rw [← ha]
        exact min_le_left _ _
      · intro hfull
        simp [hfull]
    · rw [if_neg hs]
      exact ⟨rfl, rfl, fun he => absurd he hs, fun _ => rfl⟩
  · intro hinv s hs a ha
    simp only [List.mem_map] at hs
    obtain ⟨s₀, hs₀, rfl⟩ := hs
    unfold releaseSlot at ha ⊢
    by_cases hk : s₀.id = booking.parking_space_id
    · simp only [if_pos hk, Option.some.injEq] at ha ⊢
      rw [← ha]
      exact min_le_left _ _
    · simp only [if_neg hk] at ha ⊢
      exact hinv s₀ hs₀ a ha

/-- The sample booking cancelled: the released space is the one of the booking. -/
theorem slot_release_cap_witness :
    selectBooking bookedDb 1 2 = some (sampleBooking, sampleSpace) ∧
      (userBookingsCancel bookedDb 2 1 18000000 18000000).1 = .cancelled ∧
      sampleSpace ∈ bookedDb.parking_spaces ∧ sampleSpace.id = sampleBooking.parking_space_id :=
  ⟨selectBooking_bookedDb, cancel_bookedDb,
    (slot_release_cap bookedDb 2 1 18000000 18000000 sampleBooking sampleSpace
      selectBooking_bookedDb cancel_bookedDb).2.2⟩

/-- Claim C8. Ledger reversal with floor: a cancel that goes through, of a booking with
owner earnings `e` (a missing value read as 0), rewrites the ledger of the owner of the
booked space to `pending_payout = max(0, old - e)` and `total_earnings = max(0, old - e)`
(missing old values read as 0), both therefore never negative, keeps `total_bookings`
and `completed_payout`, and leaves every other account as it was. -/
theorem ledger_reversal_floor (db : Db) (userId bookingId now refundDate : ℤ)
    (booking : Booking) (ps : ParkingSpace)
    (hsel : selectBooking db bookingId userId = some (booking, ps))
    (h : (userBookingsCancel db userId bookingId now refundDate).1 = .cancelled) :
    List.Forall₂
      (fun u u' : User =>
        u'.id = u.id ∧ u'.total_bookings = u.total_bookings ∧
          u'.completed_payout = u.completed_payout ∧
          (u.id = ps.owner_id →
            u'.pending_payout
                = some (max 0 (u.pending_payout.getD 0 - booking.owner_earnings.getD 0)) ∧
              u'.total_earnings
                = some (max 0 (u.total_earnings.getD 0 - booking.owner_earnings.getD 0)) ∧
              (∀ p : ℚ, u'.pending_payout = some p → 0 ≤ p) ∧
              (∀ t : ℚ, u'.total_earnings = some t → 0 ≤ t)) ∧
          (u.id ≠ ps.owner_id → u' = u))
      db.users (userBookingsCancel db userId bookingId now refundDate).2.users := by
  obtain ⟨booking₀, ps₀, start, hsel₀, hst, hstart, hnow⟩ :=
    userBookingsCancel_cancelled_inv db userId bookingId now refundDate h
  rw [hsel] at hsel₀
  obtain ⟨rfl, rfl⟩ : booking = booking₀ ∧ ps = ps₀ := by simpa using hsel₀
  rw [userBookingsCancel_cancelled db userId bookingId now refundDate start booking ps
    hsel hst hstart hnow]
  apply forall₂_map_self
  intro u _
  unfold reverseOwner
  rw [numOr_zero]
  by_cases hu : u.id = ps.owner_id
  · rw [if_pos hu]
    refine ⟨rfl, rfl, rfl, fun _ => ⟨rfl, rfl, ?_, ?_⟩, fun hne => absurd hu hne⟩
    · intro p hp
      simp only [Option.some.injEq] at hp
      rw [← hp]
      exact le_max_left _ _
    · intro t ht
      simp only [Option.some.injEq] at ht
      rw [← ht]
      exact le_max_left _ _
  · rw [if_neg hu]
    exact ⟨rfl, rfl, rfl, fun he => absurd he hu, fun _ => rfl⟩

/-- The sample booking cancelled: the two accounts are still two. -/
theorem ledger_reversal_floor_witness :
    selectBooking bookedDb 1 2 = some (sampleBooking, sampleSpace) ∧
      (userBookingsCancel bookedDb 2 1 18000000 18000000).1 = .cancelled ∧
      (userBookingsCancel bookedDb 2 1 18000000 18000000).2.users.length = 2 :=
  ⟨selectBooking_bookedDb, cancel_bookedDb,
    ((ledger_reversal_floor bookedDb 2 1 18000000 18000000 sampleBooking sampleSpace
      selectBooking_bookedDb cancel_bookedDb).length_eq).symm.trans rfl⟩

/-! ## Booking creation -/

theorem foldl_max_ge (l : List Booking) (m : ℤ) :
    m ≤ l.foldl (fun m b => max m b.id) m ∧
      ∀ b ∈ l, b.id ≤ l.foldl (fun m b => max m b.id) m := by
  induction l generalizing m with
  | nil => simp
  | cons a t ih =>
    simp only [List.foldl_cons, List.mem_cons, forall_eq_or_imp]
    refine ⟨le_trans (le_max_left m a.id) (ih _).1, le_trans (le_max_right m a.id) (ih _).1,
      (ih _).2⟩

theorem lt_lastID (db : Db) (b : Booking) (hb : b ∈ db.bookings) : b.id < lastID db := by
  unfold lastID
  have := (foldl_max_ge db.bookings 0).2 b hb
  omega

/-- Claim C9. Create postcondition: for every space the booking handler finds and every
interval with `start < end`, the booking goes through and appends exactly one row, with
a fresh id, `Paid`, `Active`, empty refund fields and the computed total, commission and
owner earnings; every account with the id of the space's owner gets `pending_payout`
and `total_earnings` increased by the owner earnings and `total_bookings` increased by 1
(missing old values read as 0), such an account exists, and the other accounts are as
they were. -/
theorem create_postcondition (db : Db) (userId id start stop : ℤ) (space : ParkingSpace)
    (hs : selectSpace db id = some space) (h : start < stop) :
    ∃ (row : Booking) (total commission earnings : ℚ),
      total = totalAmount (hours start stop) space.price_per_hour ∧
      commission = platformCommission COMMISSION_RATE total ∧
      earnings = ownerEarnings total commission ∧
      (userBook db userId id (.instant start) (.instant stop)).1
        = .confirmed row.id total commission earnings ∧
      (userBook db userId id (.instant start) (.instant stop)).2.bookings
        = db.bookings ++ [row] ∧
      (∀ b ∈ db.bookings, b.id < row.id) ∧
      row.user_id = userId ∧ row.parking_space_id = space.id ∧
      row.start_time = some start ∧ row.end_time = some stop ∧
      row.payment_status = some "Paid" ∧ row.booking_status = some "Active" ∧
      row.refund_amount = none ∧ row.refund_status = none ∧ row.refund_date = none ∧
      row.total_price = total ∧ row.total_amount = some total ∧
      row.platform_commission = some commission ∧ row.owner_earnings = some earnings ∧
      (∃ u ∈ db.users, u.id = space.owner_id) ∧
      List.Forall₂
        (fun u u' : User =>
          u'.id = u.id ∧ u'.completed_payout = u.completed_payout ∧
            (u.id = space.owner_id →
              u'.pending_payout = some (u.pending_payout.getD 0 + earnings) ∧
                u'.total_earnings = some (u.total_earnings.getD 0 + earnings) ∧
                u'.total_bookings = some (u.total_bookings.getD 0 + 1)) ∧
            (u.id ≠ space.owner_id → u' = u))
        db.users (userBook db userId id (.instant start) (.instant stop)).2.users := by
  rw [userBook_confirmed db userId id start stop space hs h]
  refine ⟨_, _, _, _, rfl, rfl, rfl, rfl, rfl, fun b hb => lt_lastID db b hb, rfl, rfl, rfl,
    rfl, rfl, rfl, rfl, rfl, rfl, rfl, rfl, rfl, rfl, ?_, ?_⟩
  · have := List.find?_some hs
    simp only [decide_eq_true_eq] at this
    exact this.2
  · apply forall₂_map_self
    intro u _
    unfold creditOwner
    by_cases hu : u.id = space.owner_id
    · rw [if_pos hu]
      exact ⟨rfl, rfl, fun _ => ⟨rfl, rfl, rfl⟩, fun hne => absurd hu hne⟩
    · rw [if_neg hu]
      exact ⟨rfl, rfl, fun he => absurd he hu, fun _ => rfl⟩

/-- The sample space booked 08:00-10:30: one Active row is appended. -/
theorem create_postcondition_witness :
    selectSpace sampleDb 1 = some sampleSpace ∧ (28800000 : ℤ) < 37800000 ∧
      ∃ (row : Booking) (total commission earnings : ℚ),
        (userBook sampleDb 2 1 (.instant 28800000) (.instant 37800000)).1
          = .confirmed row.id total commission earnings ∧
        (userBook sampleDb 2 1 (.instant 28800000) (.instant 37800000)).2.bookings
          = sampleDb.bookings ++ [row] ∧
        row.booking_status = some "Active" :=
  ⟨selectSpace_sampleDb, by decide,
    match create_postcondition sampleDb 2 1 28800000 37800000 sampleSpace selectSpace_sampleDb
      (by decide) with
    | ⟨row, total, commission, earnings, _, _, _, h₁, h₂, _, _, _, _, _, _, h₃, _⟩ =>
      ⟨row, total, commission, earnings, h₁, h₂, h₃⟩⟩

/-- Claim C10. Create leaves slots untouched: whatever the booking handler answers, the
table of parking spaces, hence `available_slots` and `total_slots` of every space, is
the same afterwards as before; and a booking of a space whose `available_slots` is 0,
for an interval with `start < end`, goes through. -/
theorem create_leaves_slots (db : Db) (userId id : ℤ) (start_time end_time : TimeInput) :
    (userBook db userId id start_time end_time).2.parking_spaces = db.parking_spaces ∧
      ∀ (space : ParkingSpace) (start stop : ℤ), selectSpace db id = some space →
        space.available_slots = some 0 → start < stop →
        (∃ (bookingId : ℤ) (total commission earnings : ℚ),
          (userBook db userId id (.instant start) (.instant stop)).1
            = .confirmed bookingId total commission earnings) ∧
          (userBook db userId id (.instant start) (.instant stop)).2.parking_spaces
            = db.parking_spaces := by
  constructor
  · unfold userBook
    split
    · split <;> rfl
    · split
      · rfl
      · split
        · split <;> rfl
        · rfl
  · intro space start stop hs _ hlt
    rw [userBook_confirmed db userId id start stop space hs hlt]
    exact ⟨⟨_, _, _, _, rfl⟩, rfl⟩

/-- The sample space, with no free slot, booked 08:00-10:30: the spaces are unchanged. -/
theorem create_leaves_slots_witness :
    selectSpace sampleDb 1 = some sampleSpace ∧ sampleSpace.available_slots = some 0 ∧
      (28800000 : ℤ) < 37800000 ∧
      (userBook sampleDb 2 1 (.instant 28800000) (.instant 37800000)).2.parking_spaces
        = sampleDb.parking_spaces :=
  ⟨selectSpace_sampleDb, rfl, by decide,
    ((create_leaves_slots sampleDb 2 1 (.instant 28800000) (.instant 37800000)).2
      sampleSpace 28800000 37800000 selectSpace_sampleDb rfl (by decide)).2⟩

/-! ## Rejections -/

/-- Claim C11, as amended. For every space the booking handler finds: it answers with the
invalid-interval error if and only if both time fields are filled in and one of them
does not parse or `end ≤ start`; it answers with the form and the missing-time message
if and only if a time field is missing or empty; in both cases the database is
unchanged, so no booking is stored and no ledger field changes. For a space it does not
find it answers NotFound, whatever the time fields, and the database is unchanged. -/
theorem invalid_interval_rejection (db : Db) (userId id : ℤ) (space : ParkingSpace)
    (start_time end_time : TimeInput) (hs : selectSpace db id = some space) :
    ((userBook db userId id start_time end_time).1 = .invalidTime ↔
        start_time ≠ .missing ∧ end_time ≠ .missing ∧
          (start_time.getTime = none ∨ end_time.getTime = none ∨
            ∃ s e : ℤ, start_time = .instant s ∧ end_time = .instant e ∧ e ≤ s)) ∧
      ((userBook db userId id start_time end_time).1 = .missingTime ↔
        start_time = .missing ∨ end_time = .missing) ∧
      ((userBook db userId id start_time end_time).1 = .invalidTime ∨
          (userBook db userId id start_time end_time).1 = .missingTime →
        (userBook db userId id start_time end_time).2 = db) ∧
      ∀ id' : ℤ, selectSpace db id' = none →
        userBook db userId id' start_time end_time = (.notFound, db) := by
  refine ⟨?_, ?_, ?_, ?_⟩
  · cases start_time <;> cases end_time <;>
      simp [userBook, hs, TimeInput.falsy, TimeInput.getTime]
    rename_i s e
    by_cases h : e ≤ s <;> simp [h]
  · cases start_time <;> cases end_time <;>
      simp [userBook, hs, TimeInput.falsy, TimeInput.getTime]
    rename_i s e
    by_cases h : e ≤ s <;> simp [h]
  · cases start_time <;> cases end_time <;>
      simp [userBook, hs, TimeInput.falsy, TimeInput.getTime]
    rename_i s e
    by_cases h : e ≤ s <;> simp [h]
  · intro id' hnone
    cases start_time <;> cases end_time <;> simp [userBook, hnone, TimeInput.falsy]

/-- The sample space booked with an end that does not parse: the invalid-interval error. -/
theorem invalid_interval_rejection_witness :
    selectSpace sampleDb 1 = some sampleSpace ∧
      (userBook sampleDb 2 1 (.instant 28800000) .unparsable).1 = .invalidTime :=
  ⟨selectSpace_sampleDb,
    (invalid_interval_rejection sampleDb 2 1 sampleSpace (.instant 28800000) .unparsable
      selectSpace_sampleDb).1.mpr
      ⟨by decide, by decide, Or.inr (Or.inl rfl)⟩⟩

/-- Claim C11 as stated fails when a time field is left empty: an empty start is not a
valid timestamp, yet the sample space gets the form with the missing-time message, not
the invalid-interval error. -/
theorem missing_time_not_invalid_interval :
    selectSpace sampleDb 1 = some sampleSpace ∧
      TimeInput.missing.getTime = none ∧
      (userBook sampleDb 2 1 .missing (.instant 37800000)).1 = .missingTime ∧
      (userBook sampleDb 2 1 .missing (.instant 37800000)).1 ≠ .invalidTime := by
  have h : (userBook sampleDb 2 1 .missing (.instant 37800000)).1 = .missingTime := by
    simp [userBook, selectSpace_sampleDb, TimeInput.falsy]
  refine ⟨selectSpace_sampleDb, rfl, h, ?_⟩
  rw [h]
  decide

theorem selectBooking_none (db : Db) (bookingId userId : ℤ)
    (h : ∀ b ∈ db.bookings, ¬ (b.id = bookingId ∧ b.user_id = userId)) :
    selectBooking db bookingId userId = none := by
  unfold selectBooking
  rw [List.findSome?_eq_none_iff]
  intro b hb
  rw [if_neg (h b hb)]

theorem selectBooking_completedDb :
    selectBooking completedDb 1 2 = some (completedBooking, sampleSpace) := by
  simp [selectBooking, completedDb, completedBooking, bookedDb, sampleBooking, newBooking,
    sampleSpace]

theorem selectBooking_legacyDb :
    selectBooking legacyDb 1 2 = some (legacyBooking, sampleSpace) := by
  simp [selectBooking, legacyDb, legacyBooking, bookedDb, sampleBooking, newBooking,
    sampleSpace]

/-- Claim C14, as amended. For every booking the handler finds for the caller: when its
`booking_status` is present, not empty and other than `Active` (such as `Completed` or
`Cancelled`), cancel answers InvalidState and leaves the database unchanged; when its
`booking_status` is missing or empty, cancel treats it as Active: it never answers
InvalidState, and it goes through when the start lies ahead. -/
theorem invalid_state_rejection (db : Db) (userId bookingId now refundDate : ℤ)
    (booking : Booking) (ps : ParkingSpace)
    (hsel : selectBooking db bookingId userId = some (booking, ps)) :
    (∀ status : String, booking.booking_status = some status → status ≠ "" →
        status ≠ "Active" →
        userBookingsCancel db userId bookingId now refundDate = (.invalidState, db)) ∧
      (booking.booking_status = none ∨ booking.booking_status = some "" →
        (userBookingsCancel db userId bookingId now refundDate).1 ≠ .invalidState ∧
          ∀ start : ℤ, booking.start_time = some start → now < start →
            (userBookingsCancel db userId bookingId now refundDate).1 = .cancelled) := by
  constructor
  · intro status hstatus hne hna
    unfold userBookingsCancel
    simp only [hsel]
    rw [if_pos]
    refine ⟨by simp [truthy, hstatus, hne], by simp [hstatus, hna]⟩
  · intro hmissing
    have hst : ¬ (truthy booking.booking_status ∧ booking.booking_status ≠ some "Active") := by
      rcases hmissing with h | h <;> simp [truthy, h]
    constructor
    · unfold userBookingsCancel
      simp only [hsel]
      rw [if_neg hst]
      cases booking.start_time with
      | none => simp
      | some start => by_cases hnow : now ≥ start <;> simp [hnow]
    · intro start hstart hnow
      exact (selectBooking_cancelled db userId bookingId now refundDate start booking ps hsel
        hst hstart hnow).1

/-- The completed sample booking: cancel answers InvalidState and changes nothing. -/
theorem invalid_state_rejection_witness :
    selectBooking completedDb 1 2 = some (completedBooking, sampleSpace) ∧
      userBookingsCancel completedDb 2 1 18000000 18000000 = (.invalidState, completedDb) :=
  ⟨selectBooking_completedDb,
    (invalid_state_rejection completedDb 2 1 18000000 18000000 completedBooking sampleSpace
      selectBooking_completedDb).1 "Completed" rfl (by decide) (by decide)⟩

/-- Claim C14 as stated fails on a row without `booking_status`: its status is not
`Active`, yet a cancel 3 hours before its start goes through. -/
theorem missing_status_is_cancelled :
    selectBooking legacyDb 1 2 = some (legacyBooking, sampleSpace) ∧
      legacyBooking.booking_status = none ∧
      legacyBooking.booking_status ≠ some "Active" ∧
      (userBookingsCancel legacyDb 2 1 18000000 18000000).1 = .cancelled ∧
      (userBookingsCancel legacyDb 2 1 18000000 18000000).1 ≠ .invalidState := by
  have h : (userBookingsCancel legacyDb 2 1 18000000 18000000).1 = .cancelled :=
    (selectBooking_cancelled legacyDb 2 1 18000000 18000000 28800000 legacyBooking sampleSpace
      selectBooking_legacyDb (by simp [truthy, legacyBooking]) rfl (by decide)).1
  refine ⟨selectBooking_legacyDb, rfl, by simp [legacyBooking], h, ?_⟩
  rw [h]
  decide

/-- Claim C15. Ownership check: when no booking with the given id belongs to the given
renter (the id is unknown, or its booking belongs to another renter), cancel answers
NotFound and leaves the database unchanged: bookings, slots and ledgers. -/
theorem ownership_check (db : Db) (userId bookingId now refundDate : ℤ)
    (h : ∀ b ∈ db.bookings, ¬ (b.id = bookingId ∧ b.user_id = userId)) :
    userBookingsCancel db userId bookingId now refundDate = (.notFound, db) := by
  unfold userBookingsCancel
  rw [selectBooking_none db bookingId userId h]

/-- The sample booking, of renter 2, cancelled by user 1: NotFound, nothing changes. -/
theorem ownership_check_witness :
    (∀ b ∈ bookedDb.bookings, ¬ (b.id = 1 ∧ b.user_id = 1)) ∧
      userBookingsCancel bookedDb 1 1 18000000 18000000 = (.notFound, bookedDb) :=
  ⟨by simp [bookedDb, sampleBooking, newBooking],
    ownership_check bookedDb 1 1 18000000 18000000
      (by simp [bookedDb, sampleBooking, newBooking])⟩

/-! ## The booking record and the ledger across a cancellation -/

theorem selectBooking_freeDb :
    selectBooking freeDb 1 2 = some (freeBooking, sampleSpace) := by
  simp [selectBooking, freeDb, freeBooking, bookedDb, sampleBooking, newBooking, sampleSpace]

theorem refundAmount_of_gt {h base : ℚ} (hgt : h > 2) : refundAmount h base = base := by
  simp [refundAmount, hgt]

theorem refundAmount_of_le {h base : ℚ} (hpos : 0 < h) (hle : h ≤ 2) :
    refundAmount h base = base * (1 / 2) := by
  simp [refundAmount, not_lt.mpr hle, hpos]

/-- Claim C17, as amended. For every cancel that goes through, the booking found
afterwards has `booking_status = Cancelled`, `refund_status = Processed`, a
`refund_amount` equal to the tier refund on the base amount (all of it more than 2
hours ahead, half of it otherwise) and `refund_date` equal to the clock read when the
refund is recorded; `payment_status` is `Refunded` when the refund is positive, and
otherwise its previous value when that is present and not empty and `Paid` when it was
missing or empty; `total_price`, `total_amount`, `platform_commission`,
`owner_earnings`, the keys and the times are unchanged, and so is every booking with
another id. -/
theorem cancel_postcondition (db : Db) (userId bookingId now refundDate start : ℤ)
    (booking : Booking) (ps : ParkingSpace)
    (hsel : selectBooking db bookingId userId = some (booking, ps))
    (hstart : booking.start_time = some start)
    (h : (userBookingsCancel db userId bookingId now refundDate).1 = .cancelled) :
    (∃ (booking' : Booking) (ps' : ParkingSpace) (refund : ℚ),
      selectBooking (userBookingsCancel db userId bookingId now refundDate).2 bookingId userId
        = some (booking', ps') ∧
      booking'.booking_status = some "Cancelled" ∧
      booking'.refund_status = some "Processed" ∧
      booking'.refund_amount = some refund ∧
      (hoursBeforeStart start now > 2 → refund = baseAmount booking) ∧
      (hoursBeforeStart start now ≤ 2 → refund = baseAmount booking * (1 / 2)) ∧
      booking'.refund_date = some refundDate ∧
      (0 < refund → booking'.payment_status = some "Refunded") ∧
      (¬ 0 < refund → ∀ label : String, booking.payment_status = some label → label ≠ "" →
        booking'.payment_status = some label) ∧
      (¬ 0 < refund → booking.payment_status = none ∨ booking.payment_status = some "" →
        booking'.payment_status = some "Paid") ∧
      booking'.total_price = booking.total_price ∧
      booking'.total_amount = booking.total_amount ∧
      booking'.platform_commission = booking.platform_commission ∧
      booking'.owner_earnings = booking.owner_earnings ∧
      booking'.id = booking.id ∧ booking'.user_id = booking.user_id ∧
      booking'.parking_space_id = booking.parking_space_id ∧
      booking'.start_time = booking.start_time ∧ booking'.end_time = booking.end_time) ∧
      List.Forall₂ (fun b b' : Booking => b.id ≠ bookingId → b' = b)
        db.bookings (userBookingsCancel db userId bookingId now refundDate).2.bookings := by
  obtain ⟨booking₀, ps₀, start₀, hsel₀, hst, hstart₀, hnow⟩ :=
    userBookingsCancel_cancelled_inv db userId bookingId now refundDate h
  rw [hsel] at hsel₀
  obtain ⟨rfl, rfl⟩ : booking = booking₀ ∧ ps = ps₀ := by simpa using hsel₀
  rw [hstart] at hstart₀
  obtain rfl : start = start₀ := by simpa using hstart₀
  have hpos := hoursBeforeStart_pos hnow
  obtain ⟨_, h₂⟩ := selectBooking_cancelled db userId bookingId now refundDate start booking ps
    hsel hst hstart hnow
  constructor
  · refine ⟨_, _, refundAmount (hoursBeforeStart start now) (baseAmount booking), h₂, rfl, rfl,
      rfl, refundAmount_of_gt, refundAmount_of_le hpos, rfl, ?_, ?_, ?_, rfl, rfl, rfl, rfl, rfl,
      rfl, rfl, rfl, rfl⟩
    · intro hr
      simp [paymentStatus, hr]
    · intro hr label hlabel hne
      simp [paymentStatus, hr, strOr, hlabel, hne]
    · intro hr hmissing
      rcases hmissing with hm | hm <;> simp [paymentStatus, hr, strOr, hm]
  · rw [userBookingsCancel_cancelled db userId bookingId now refundDate start booking ps
      hsel hst hstart hnow]
    apply forall₂_map_self
    intro b _ hb
    unfold markCancelled
    rw [if_neg hb]

/-- The sample booking cancelled 3 hours ahead: every other booking is as it was. -/
theorem cancel_postcondition_witness :
    selectBooking bookedDb 1 2 = some (sampleBooking, sampleSpace) ∧
      sampleBooking.start_time = some 28800000 ∧
      (userBookingsCancel bookedDb 2 1 18000000 18000000).1 = .cancelled ∧
      List.Forall₂ (fun b b' : Booking => b.id ≠ 1 → b' = b)
        bookedDb.bookings (userBookingsCancel bookedDb 2 1 18000000 18000000).2.bookings :=
  ⟨selectBooking_bookedDb, rfl, cancel_bookedDb,
    (cancel_postcondition bookedDb 2 1 18000000 18000000 28800000 sampleBooking sampleSpace
      selectBooking_bookedDb rfl cancel_bookedDb).2⟩

/-- Claim C17 as stated fails on a booking of amount 0 without `payment_status`: the
refund is 0, yet `payment_status` does not keep its (missing) value, it becomes `Paid`. -/
theorem missing_payment_status_becomes_paid :
    selectBooking freeDb 1 2 = some (freeBooking, sampleSpace) ∧
      freeBooking.payment_status = none ∧
      (userBookingsCancel freeDb 2 1 18000000 18000000).1 = .cancelled ∧
      (selectBooking (userBookingsCancel freeDb 2 1 18000000 18000000).2 1 2).map
        (fun p => (p.1.refund_amount, p.1.payment_status)) = some (some 0, some "Paid") := by
  obtain ⟨h₁, h₂⟩ := selectBooking_cancelled freeDb 2 1 18000000 18000000 28800000
    freeBooking sampleSpace selectBooking_freeDb (by simp [truthy, freeBooking, sampleBooking,
      newBooking]) rfl (by decide)
  refine ⟨selectBooking_freeDb, rfl, h₁, ?_⟩
  rw [h₂]
  have hb : baseAmount freeBooking = 0 := by simp [baseAmount, numOr, freeBooking]
  have hr : refundAmount (hoursBeforeStart 28800000 18000000) (baseAmount freeBooking) = 0 := by
    rw [hb, refundAmount_of_gt ((hoursBeforeStart_gt_two_iff _ _).mpr (by norm_num))]
  have hp : freeBooking.payment_status = none := rfl
  simp only [Option.map_some', hr]
  simp [paymentStatus, strOr, hp]

theorem max_zero_sub_add_le {p c t e : ℚ} (hinv : p + c ≤ t) (h : e ≤ p ∨ c ≤ 0) :
    max 0 (p - e) + c ≤ max 0 (t - e) := by
  rcases le_total 0 (p - e) with hp | hp
  · rw [max_eq_right hp]
    exact le_trans (by linarith) (le_max_right 0 (t - e))
  · rw [max_eq_left hp]
    rcases h with h | h
    · exact le_trans (by linarith) (le_max_right 0 (t - e))
    · exact le_trans (by linarith) (le_max_left 0 (t - e))

/-! ## Round trip -/

theorem find?_id_of_nodup (l : List ParkingSpace) (space : ParkingSpace) (hmem : space ∈ l)
    (hpk : (l.map (fun s => s.id)).Nodup) :
    l.find? (fun ps => ps.id = space.id) = some space := by
  induction l with
  | nil => simp at hmem
  | cons a t ih =>
    simp only [List.map_cons, List.nodup_cons, List.mem_map, not_exists, not_and] at hpk
    rcases List.mem_cons.mp hmem with rfl | hin
    · simp
    · have hne : a.id ≠ space.id := fun he => hpk.1 space hin he.symm
      simp only [List.find?_cons, hne, decide_False]
      exact ih hin hpk.2

theorem selectSpace_mem (db : Db) (id : ℤ) (space : ParkingSpace)
    (hs : selectSpace db id = some space) : space ∈ db.parking_spaces ∧ space.id = id := by
  have h₁ := List.mem_of_find?_eq_some hs
  have h₂ := List.find?_some hs
  simp only [decide_eq_true_eq] at h₂
  exact ⟨h₁, h₂.1⟩

/-- The lookup of the cancellation handler finds a booking just created, joined to the
space it was created for, when the ids of the spaces are distinct. -/
theorem selectBooking_new (db : Db) (us : List User) (userId id start stop : ℤ)
    (total commission earnings : ℚ) (space : ParkingSpace)
    (hs : selectSpace db id = some space)
    (hpk : (db.parking_spaces.map (fun s => s.id)).Nodup) :
    selectBooking
        { users := us
          parking_spaces := db.parking_spaces
          bookings := db.bookings ++
            [newBooking (lastID db) userId space start stop total commission earnings] }
        (lastID db) userId
      = some (newBooking (lastID db) userId space start stop total commission earnings,
          space) := by
  unfold selectBooking
  simp only [List.findSome?_append]
  have hold : List.findSome? (fun b : Booking =>
      if b.id = lastID db ∧ b.user_id = userId then
        (db.parking_spaces.find? (fun ps => ps.id = b.parking_space_id)).map (fun ps => (b, ps))
      else none) db.bookings = none := by
    rw [List.findSome?_eq_none_iff]
    intro b hb
    have := lt_lastID db b hb
    rw [if_neg (fun h => absurd h.1 (ne_of_lt this))]
  rw [hold]
  have hfind := find?_id_of_nodup db.parking_spaces space (selectSpace_mem db id space hs).1 hpk
  simp [newBooking, hfind]

/-- In exact arithmetic a booking followed by its cancellation restores the ledger: for
every space the booking handler finds (the ids of the spaces being distinct) and every
interval with `start < end`, booking and then cancelling that booking before its start
both go through, and on the account of the space's owner a `pending_payout ≥ 0` and a
`total_earnings ≥ 0` are back at their values from before the booking while
`total_bookings` is one higher; the other accounts are as before. -/
theorem round_trip_exact (db : Db) (userId id start stop now refundDate : ℤ)
    (space : ParkingSpace) (hs : selectSpace db id = some space) (hlt : start < stop)
    (hnow : now < start) (hpk : (db.parking_spaces.map (fun s => s.id)).Nodup) :
    ∃ (bookingId : ℤ) (total commission earnings : ℚ),
      (userBook db userId id (.instant start) (.instant stop)).1
        = .confirmed bookingId total commission earnings ∧
      (userBookingsCancel (userBook db userId id (.instant start) (.instant stop)).2
          userId bookingId now refundDate).1 = .cancelled ∧
      List.Forall₂
        (fun u u' : User =>
          u'.id = u.id ∧ u'.completed_payout = u.completed_payout ∧
            (u.id = space.owner_id →
              (∀ p : ℚ, u.pending_payout = some p → 0 ≤ p → u'.pending_payout = some p) ∧
                (∀ t : ℚ, u.total_earnings = some t → 0 ≤ t → u'.total_earnings = some t) ∧
                u'.total_bookings = some (u.total_bookings.getD 0 + 1)) ∧
            (u.id ≠ space.owner_id → u' = u))
        db.users
        (userBookingsCancel (userBook db userId id (.instant start) (.instant stop)).2
          userId bookingId now refundDate).2.users := by
  rw [userBook_confirmed db userId id start stop space hs hlt]
  generalize totalAmount (hours start stop) space.price_per_hour = total
  generalize platformCommission COMMISSION_RATE total = commission
  generalize ownerEarnings total commission = earnings
  refine ⟨lastID db, total, commission, earnings, rfl, ?_⟩
  have hsel := selectBooking_new db (db.users.map (creditOwner space.owner_id earnings))
    userId id start stop total commission earnings space hs hpk
  have hcancel := userBookingsCancel_cancelled _ userId (lastID db) now refundDate start _ _
    hsel (active_passes _ rfl) rfl hnow
  simp only at hcancel ⊢
  rw [hcancel]
  refine ⟨rfl, ?_⟩
  simp only [List.map_map]
  apply forall₂_map_self
  intro u _
  simp only [Function.comp_apply, newBooking, numOr_zero, Option.getD_some]
  unfold creditOwner
  by_cases hu : u.id = space.owner_id
  · rw [if_pos hu]
    unfold reverseOwner
    rw [if_pos hu]
    refine ⟨rfl, rfl, fun _ => ⟨?_, ?_, rfl⟩, fun hne => absurd hu hne⟩
    · intro p hp h0
      simp only [hp, Option.getD_some, add_sub_cancel_right, max_eq_right h0]
    · intro t ht h0
      simp only [ht, Option.getD_some, add_sub_cancel_right, max_eq_right h0]
  · rw [if_neg hu]
    unfold reverseOwner
    rw [if_neg hu]
    exact ⟨rfl, rfl, fun he => absurd he hu, fun _ => rfl⟩

/-! ## Ranking -/

theorem arraySort_perm {α : Type} (compareFn : α → α → JsNumber) (l : List α) :
    (arraySort compareFn l).Perm l :=
  List.perm_insertionSort _ l

theorem orderedInsert_congr {α : Type} (r s : α → α → Prop) [DecidableRel r] [DecidableRel s]
    (a : α) (u : List α) (h : ∀ b ∈ u, (r a b ↔ s a b)) :
    u.orderedInsert r a = u.orderedInsert s a := by
  induction u with
  | nil => rfl
  | cons b t ih =>
    simp only [List.orderedInsert]
    have hb := h b (List.mem_cons_self b t)
    by_cases hr : r a b
    · rw [if_pos hr, if_pos (hb.mp hr)]
    · rw [if_neg hr, if_neg (fun hs => hr (hb.mpr hs)),
        ih (fun c hc => h c (List.mem_cons_of_mem b hc))]

/-- Insertion sort only looks at how the elements of its input compare. -/
theorem insertionSort_congr {α : Type} (r s : α → α → Prop) [DecidableRel r] [DecidableRel s]
    (l : List α) (h : ∀ a ∈ l, ∀ b ∈ l, (r a b ↔ s a b)) :
    l.insertionSort r = l.insertionSort s := by
  induction l with
  | nil => rfl
  | cons a t ih =>
    simp only [List.insertionSort]
    rw [ih (fun x hx y hy => h x (List.mem_cons_of_mem a hx) y (List.mem_cons_of_mem a hy))]
    apply orderedInsert_congr
    intro b hb
    exact h a (List.mem_cons_self a t) b
      (List.mem_cons_of_mem a ((List.mem_insertionSort s).mp hb))

/-- A comparator that agrees, on the rows to sort, with a linear order on a key sorts
by that key. -/
theorem arraySort_pairwise {α κ : Type} [LinearOrder κ] (compareFn : α → α → JsNumber)
    (key : α → κ) (l : List α)
    (h : ∀ a ∈ l, ∀ b ∈ l, ((compareFn a b).isPositive = false ↔ key a ≤ key b)) :
    (arraySort compareFn l).Pairwise (fun a b => key a ≤ key b) := by
  haveI : IsTotal α (fun a b => key a ≤ key b) := ⟨fun a b => le_total _ _⟩
  haveI : IsTrans α (fun a b => key a ≤ key b) := ⟨fun a b c hab hbc => le_trans hab hbc⟩
  unfold arraySort
  rw [insertionSort_congr _ (fun a b => key a ≤ key b) l h]
  exact List.sorted_insertionSort (fun a b => key a ≤ key b) l

/-- A comparator that never puts a row after a row with the same key keeps the rows of
each key value in their original order. -/
theorem arraySort_filter {α κ : Type} [DecidableEq κ] (compareFn : α → α → JsNumber)
    (key : α → κ) (h : ∀ a b, key a = key b → (compareFn a b).isPositive = false)
    (l : List α) (v : κ) :
    (arraySort compareFn l).filter (fun a => decide (key a = v))
      = l.filter (fun a => decide (key a = v)) := by
  have hpw : (l.filter (fun a => decide (key a = v))).Pairwise
      (fun a b => (compareFn a b).isPositive = false) := by
    apply List.pairwise_of_forall_mem_list
    intro a ha b hb
    have ha' := (List.mem_filter.mp ha).2
    have hb' := (List.mem_filter.mp hb).2
    simp only [decide_eq_true_eq] at ha' hb'
    exact h a b (ha'.trans hb'.symm)
  have hsub : List.Sublist (l.filter (fun a => decide (key a = v))) (arraySort compareFn l) :=
    List.sublist_insertionSort hpw (List.filter_sublist l)
  have hsub' := hsub.filter (fun a => decide (key a = v))
  rw [List.filter_filter] at hsub'
  simp only [Bool.and_self] at hsub'
  have hlen := ((arraySort_perm compareFn l).filter (fun a => decide (key a = v))).length_eq
  exact (hsub'.eq_of_length hlen.symm).symm

theorem compareSpaces_price (a b : SpaceRow) :
    (compareSpaces "price" a b).isPositive = false ↔ a.price_per_hour ≤ b.price_per_hour := by
  have ha : numOr (some a.price_per_hour) 0 = a.price_per_hour := numOr_zero _
  have hb : numOr (some b.price_per_hour) 0 = b.price_per_hour := numOr_zero _
  simp [compareSpaces, JsNumber.sub, JsNumber.isPositive, ha, hb]

theorem numOr_intCast (n : Option ℤ) : numOr (n.map Int.cast) 0 = ((n.getD 0 : ℤ) : ℚ) := by
  rw [numOr_zero]
  cases n <;> simp

theorem compareSpaces_availability (a b : SpaceRow) :
    (compareSpaces "availability" a b).isPositive = false ↔
      -(a.available_slots.getD 0) ≤ -(b.available_slots.getD 0) := by
  simp [compareSpaces, JsNumber.sub, JsNumber.isPositive, numOr_intCast]

/-- The comparator on two rows whose distance is missing or finite: a missing distance
counts as the top of the order. -/
theorem compareSpaces_distance (sortBy : String) (hp : sortBy ≠ "price")
    (ha : sortBy ≠ "availability") (a b : SpaceRow) (x y : Option ℚ)
    (hx : a.distance_km = x.map JsNumber.finite) (hy : b.distance_km = y.map JsNumber.finite) :
    (compareSpaces sortBy a b).isPositive = false ↔ @LE.le (WithTop ℚ) _ x y := by
  unfold compareSpaces
  rw [if_neg hp, if_neg ha, hx, hy]
  cases x <;> cases y <;>
    simp only [Option.map_none', Option.map_some', JsNumber.sub, JsNumber.isPositive] <;>
    simp [WithTop.none_eq_top, WithTop.some_eq_coe]

theorem compareSpaces_tie (sortBy : String) (hp : sortBy ≠ "price")
    (ha : sortBy ≠ "availability") (a b : SpaceRow) (h : a.distance_km = b.distance_km) :
    (compareSpaces sortBy a b).isPositive = false := by
  unfold compareSpaces
  rw [if_neg hp, if_neg ha, h]
  cases hb : b.distance_km with
  | none => simp [JsNumber.sub, JsNumber.isPositive]
  | some v => cases v <;> simp [JsNumber.sub, JsNumber.isPositive]

/-- The ranking away from `NaN`. For every list of rows and every sort key, `sortSpaces`
yields a permutation of its input in which the rows that tie on the key keep their
original order; it is ascending by `price_per_hour` for `price` and descending by
`available_slots` (missing as 0) for `availability`; for any other key, when every
distance is missing or finite, it is ascending by `distance_km` with every row without
a distance after all rows that have one. Rows at no distance, 5 km and 1 km come out as
1 km, 5 km, no distance. -/
theorem sortSpaces_sorted (spaces : List SpaceRow) (sortBy : String) :
    (sortSpaces spaces sortBy).Perm spaces ∧
      (sortBy = "price" →
        (sortSpaces spaces sortBy).Pairwise
            (fun a b => a.price_per_hour ≤ b.price_per_hour) ∧
          ∀ v : ℚ, (sortSpaces spaces sortBy).filter (fun a => decide (a.price_per_hour = v))
            = spaces.filter (fun a => decide (a.price_per_hour = v))) ∧
      (sortBy = "availability" →
        (sortSpaces spaces sortBy).Pairwise
            (fun a b => b.available_slots.getD 0 ≤ a.available_slots.getD 0) ∧
          ∀ n : ℤ,
            (sortSpaces spaces sortBy).filter (fun a => decide (a.available_slots.getD 0 = n))
              = spaces.filter (fun a => decide (a.available_slots.getD 0 = n))) ∧
      (sortBy ≠ "price" → sortBy ≠ "availability" →
        (∀ d : Option JsNumber,
            (sortSpaces spaces sortBy).filter (fun a => decide (a.distance_km = d))
              = spaces.filter (fun a => decide (a.distance_km = d))) ∧
          ((∀ r ∈ spaces, ∀ v : JsNumber, r.distance_km = some v → ∃ d : ℚ, v = .finite d) →
            (sortSpaces spaces sortBy).Pairwise
              (fun a b => ∀ y : ℚ, b.distance_km = some (.finite y) →
                ∃ x : ℚ, a.distance_km = some (.finite x) ∧ x ≤ y))) ∧
      sortSpaces [unplacedRow, farRow, nearRow] "distance" = [nearRow, farRow, unplacedRow] := by
  refine ⟨arraySort_perm _ _, ?_, ?_, ?_, ?_⟩
  · rintro rfl
    exact ⟨arraySort_pairwise _ (fun a => a.price_per_hour) spaces
        (fun a _ b _ => compareSpaces_price a b),
      arraySort_filter _ (fun a => a.price_per_hour)
        (fun a b h => (compareSpaces_price a b).mpr (le_of_eq h)) spaces⟩
  · rintro rfl
    constructor
    · exact (arraySort_pairwise _ (fun a => -(a.available_slots.getD 0)) spaces
        (fun a _ b _ => compareSpaces_availability a b)).imp (fun h => neg_le_neg_iff.mp h)
    · exact arraySort_filter _ (fun a : SpaceRow => a.available_slots.getD 0)
        (fun a b h => (compareSpaces_availability a b).mpr (le_of_eq (congrArg Neg.neg h)))
        spaces
  · intro hp ha
    constructor
    · exact arraySort_filter _ (fun a : SpaceRow => a.distance_km)
        (fun a b h => compareSpaces_tie sortBy hp ha a b h) spaces
    · intro hfin
      have hkey : ∀ r ∈ spaces, ∃ x : Option ℚ, r.distance_km = x.map JsNumber.finite := by
        intro r hr
        cases hd : r.distance_km with
        | none => exact ⟨none, rfl⟩
        | some v =>
          obtain ⟨d, rfl⟩ := hfin r hr v hd
          exact ⟨some d, rfl⟩
      have hsorted := @arraySort_pairwise SpaceRow (WithTop ℚ) _ (compareSpaces sortBy)
        (fun r => match r.distance_km with
          | some (.finite d) => some d
          | _ => none) spaces
        (by
          intro a hma b hmb
          obtain ⟨x, hx⟩ := hkey a hma
          obtain ⟨y, hy⟩ := hkey b hmb
          rw [compareSpaces_distance sortBy hp ha a b x y hx hy]
          beta_reduce
          rw [hx, hy]
          cases x <;> cases y <;> rfl)
      refine hsorted.imp ?_
      intro a b hab y hy
      beta_reduce at hab
      rw [hy] at hab
      cases hda : a.distance_km with
      | none =>
        rw [hda] at hab
        simp [WithTop.none_eq_top, WithTop.some_eq_coe] at hab
      | some v =>
        rw [hda] at hab
        cases v with
        | finite x =>
          refine ⟨x, rfl, ?_⟩
          simpa [WithTop.some_eq_coe] using hab
        | nan => simp [WithTop.none_eq_top, WithTop.some_eq_coe] at hab
        | negInfinity => simp [WithTop.none_eq_top, WithTop.some_eq_coe] at hab
        | posInfinity => simp [WithTop.none_eq_top, WithTop.some_eq_coe] at hab
  · simp [sortSpaces, arraySort, compareSpaces, JsNumber.sub, JsNumber.isPositive,
      unplacedRow, farRow, nearRow]

/-- Claim C12, at the failing input. Ranking with a `NaN` distance: the comparator
returns `NaN`, which the sort reads as a tie, whenever one of the two rows has the
distance `NaN`. A row at `NaN` followed by a row at 1 km stays in front of it: on these
two rows the comparator is consistent (every pair ties), so the language itself fixes the
result, and the row at 1 km does not come first. With distances 3, `NaN`, 1 and 2 (in km)
`sortSpaces` by distance leaves the rows as they are, the rows at 1 km and 2 km behind
the row at 3 km. -/
theorem sortSpaces_nan_unsorted :
    (∀ row : SpaceRow, compareSpaces "distance" row nanRow = .nan ∧
        compareSpaces "distance" nanRow row = .nan) ∧
      sortSpaces [nanRow, nearRow] "distance" = [nanRow, nearRow] ∧
      sortSpaces [threeKmRow, nanRow, nearRow, twoKmRow] "distance"
        = [threeKmRow, nanRow, nearRow, twoKmRow] ∧
      nanRow.distance_km = some .nan ∧
      threeKmRow.distance_km = some (.finite 3) ∧ nearRow.distance_km = some (.finite 1) ∧
      ¬ ((3 : ℚ) ≤ 1) := by
  refine ⟨?_, ?_, ?_, rfl, rfl, rfl, by norm_num⟩
  · intro row
    constructor
    · cases hd : row.distance_km with
      | none => simp [compareSpaces, JsNumber.sub, nanRow, hd]
      | some v => cases v <;> simp [compareSpaces, JsNumber.sub, nanRow, hd]
    · cases hd : row.distance_km with
      | none => simp [compareSpaces, JsNumber.sub, nanRow, hd]
      | some v => cases v <;> simp [compareSpaces, JsNumber.sub, nanRow, hd]
  · simp [sortSpaces, arraySort, compareSpaces, JsNumber.sub, JsNumber.isPositive,
      nanRow, nearRow]
  · simp [sortSpaces, arraySort, compareSpaces, JsNumber.sub, JsNumber.isPositive,
      threeKmRow, nanRow, nearRow, twoKmRow]

/-! ## Text search -/

theorem userSearch_spaces (haversineKm : JsNumber → JsNumber → ℚ → ℚ → JsNumber) (db : Db)
    (query : SearchQuery) (hco : hasCoords query = false) :
    (userSearch haversineKm db query).spaces
      = sortSpaces ((joinOwners db).filter (searchWhere query)) (strOr query.sort "distance") := by
  unfold userSearch
  simp only [hco]
  rfl

theorem mem_joinOwners (db : Db) (row : SpaceRow) :
    row ∈ joinOwners db ↔
      ∃ ps ∈ db.parking_spaces, ∃ u ∈ db.users, u.id = ps.owner_id ∧
        row = { toParkingSpace := ps, owner_name := u.name, distance_km := none } := by
  unfold joinOwners
  simp only [List.mem_flatMap, List.mem_map, List.mem_filter, decide_eq_true_eq]
  constructor
  · rintro ⟨ps, hps, u, ⟨hu, hid⟩, rfl⟩
    exact ⟨ps, hps, u, hu, hid, rfl⟩
  · rintro ⟨ps, hps, u, hu, hid, rfl⟩
    exact ⟨ps, hps, u, ⟨hu, hid⟩, rfl⟩

/-- A listed space that passes the vehicle filter is among the rows of a text search
exactly when its address or its description is `LIKE` the text between two `%`. -/
theorem userSearch_returns_iff (haversineKm : JsNumber → JsNumber → ℚ → ℚ → JsNumber)
    (db : Db) (query : SearchQuery) (location : String) (ps : ParkingSpace)
    (hloc : query.location = some location) (hne : location ≠ "")
    (hco : hasCoords query = false) (hlisted : ps ∈ db.parking_spaces)
    (howner : ∃ u ∈ db.users, u.id = ps.owner_id)
    (hveh : ∀ v : String, query.vehicle_type = some v → v ≠ "" →
      ps.vehicle_type = v ∨ ps.vehicle_type = "both") :
    (∃ row ∈ (userSearch haversineKm db query).spaces, row.toParkingSpace = ps) ↔
      sqlLike ps.address ("%" ++ location ++ "%") = true ∨
        sqlLike ps.location_description ("%" ++ location ++ "%") = true := by
  rw [userSearch_spaces haversineKm db query hco]
  have hwhere : ∀ row : SpaceRow, row.toParkingSpace = ps →
      (searchWhere query row = true ↔
        sqlLike ps.address ("%" ++ location ++ "%") = true ∨
          sqlLike ps.location_description ("%" ++ location ++ "%") = true) := by
    intro row hrow
    have hv : (if truthy query.vehicle_type then
        decide (row.vehicle_type = strOr query.vehicle_type "") ||
          decide (row.vehicle_type = "both") else true) = true := by
      cases hq : query.vehicle_type with
      | none => simp [truthy]
      | some v =>
        by_cases hv0 : v = ""
        · simp [truthy, hv0]
        · have := hveh v hq hv0
          rw [← hrow] at this
          simpa [truthy, strOr, hv0] using this
    unfold searchWhere
    rw [hv]
    simp [hloc, truthy, strOr, hne, hco, ← hrow]
  constructor
  · rintro ⟨row, hmem, hrow⟩
    have hmem' := ((arraySort_perm _ _).mem_iff).mp hmem
    exact (hwhere row hrow).mp (List.mem_filter.mp hmem').2
  · intro hlike
    obtain ⟨u, hu, hid⟩ := howner
    refine ⟨{ toParkingSpace := ps, owner_name := u.name, distance_km := none }, ?_, rfl⟩
    apply ((arraySort_perm _ _).mem_iff).mpr
    exact List.mem_filter.mpr
      ⟨(mem_joinOwners db _).mpr ⟨ps, hlisted, u, hu, hid, rfl⟩, (hwhere _ rfl).mpr hlike⟩

theorem likeMatch_percent (ps text : List Char) :
    likeMatch ('%' :: ps) text = text.tails.any (fun rest => likeMatch ps rest) := by
  rw [likeMatch.eq_def]
  rfl

theorem likeMatch_nil_text (p : Char) (ps : List Char) (hp : p ≠ '%') :
    likeMatch (p :: ps) [] = false := by
  rw [likeMatch, if_neg hp]

theorem likeMatch_cons (p : Char) (ps : List Char) (c : Char) (cs : List Char)
    (hp : p ≠ '%') :
    likeMatch (p :: ps) (c :: cs)
      = ((decide (p = '_') || decide (p.toLower = c.toLower)) && likeMatch ps cs) := by
  rw [likeMatch, if_neg hp]

theorem likeMatch_literal (lit : List Char) (hlit : ∀ c ∈ lit, c ≠ '%' ∧ c ≠ '_')
    (text : List Char) :
    likeMatch (lit ++ ['%']) text = true ↔
      ∃ mid suf : List Char, text = mid ++ suf ∧
        mid.map Char.toLower = lit.map Char.toLower := by
  induction lit generalizing text with
  | nil =>
    constructor
    · intro _
      exact ⟨[], text, rfl, rfl⟩
    · intro _
      rw [List.nil_append, likeMatch_percent, List.any_eq_true]
      exact ⟨[], (List.mem_tails [] text).mpr List.nil_suffix, rfl⟩
  | cons c cs ih =>
    have hc := hlit c (List.mem_cons_self c cs)
    have hcs : ∀ x ∈ cs, x ≠ '%' ∧ x ≠ '_' := fun x hx => hlit x (List.mem_cons_of_mem c hx)
    cases text with
    | nil =>
      rw [List.cons_append, likeMatch_nil_text c _ hc.1]
      constructor
      · intro h
        exact absurd h (by decide)
      · rintro ⟨mid, suf, htext, hmid⟩
        have : mid = [] := (List.append_eq_nil.mp htext.symm).1
        subst this
        simp at hmid
    | cons d ds =>
      rw [List.cons_append, likeMatch_cons c _ d ds hc.1]
      simp only [Bool.and_eq_true, Bool.or_eq_true, decide_eq_true_eq, hc.2, false_or]
      rw [ih hcs ds]
      constructor
      · rintro ⟨hcd, mid, suf, htext, hmid⟩
        exact ⟨d :: mid, suf, by rw [htext]; rfl, by simp [hmid, hcd]⟩
      · rintro ⟨mid, suf, htext, hmid⟩
        cases mid with
        | nil => simp at hmid
        | cons m ms =>
          simp only [List.cons_append, List.cons.injEq] at htext
          simp only [List.map_cons, List.cons.injEq] at hmid
          obtain ⟨rfl, rfl⟩ := htext
          exact ⟨hmid.1.symm, ms, suf, rfl, hmid.2⟩

/-- With no `%` and no `_` in it, a text between two `%` is `LIKE`-matched by exactly the
texts that contain it up to the case of ASCII letters. -/
theorem sqlLike_contains (location text : String)
    (hlit : ∀ c ∈ location.toList, c ≠ '%' ∧ c ≠ '_') :
    sqlLike text ("%" ++ location ++ "%") = true ↔
      ∃ pre mid suf : List Char, text.toList = pre ++ mid ++ suf ∧
        mid.map Char.toLower = location.toList.map Char.toLower := by
  unfold sqlLike
  have hpat : ("%" ++ location ++ "%").toList = '%' :: (location.toList ++ ['%']) := by simp
  rw [hpat, likeMatch_percent]
  simp only [List.any_eq_true, List.mem_tails]
  constructor
  · rintro ⟨rest, ⟨pre, hpre⟩, hmatch⟩
    obtain ⟨mid, suf, hrest, hmid⟩ := (likeMatch_literal _ hlit rest).mp hmatch
    exact ⟨pre, mid, suf, by rw [← hpre, hrest, List.append_assoc], hmid⟩
  · rintro ⟨pre, mid, suf, htext, hmid⟩
    exact ⟨mid ++ suf, ⟨pre, by rw [htext, List.append_assoc]⟩,
      (likeMatch_literal _ hlit _).mpr ⟨mid, suf, rfl, hmid⟩⟩

/-- Claim C13, as amended. Text location filter: for every search with a non-empty
location text and no usable coordinates, a listed space that passes the vehicle filter
is returned if and only if its address or its location description is `LIKE` the text
between two `%`; when the text holds no `%` and no `_`, that is: the address or the
description contains the text as a substring up to the case of ASCII letters. -/
theorem text_location_filter (haversineKm : JsNumber → JsNumber → ℚ → ℚ → JsNumber)
    (db : Db) (query : SearchQuery) (location : String) (ps : ParkingSpace)
    (hloc : query.location = some location) (hne : location ≠ "")
    (hco : hasCoords query = false) (hlisted : ps ∈ db.parking_spaces)
    (howner : ∃ u ∈ db.users, u.id = ps.owner_id)
    (hveh : ∀ v : String, query.vehicle_type = some v → v ≠ "" →
      ps.vehicle_type = v ∨ ps.vehicle_type = "both") :
    ((∃ row ∈ (userSearch haversineKm db query).spaces, row.toParkingSpace = ps) ↔
        sqlLike ps.address ("%" ++ location ++ "%") = true ∨
          sqlLike ps.location_description ("%" ++ location ++ "%") = true) ∧
      ((∀ c ∈ location.toList, c ≠ '%' ∧ c ≠ '_') →
        ((∃ row ∈ (userSearch haversineKm db query).spaces, row.toParkingSpace = ps) ↔
          (∃ pre mid suf : List Char, ps.address.toList = pre ++ mid ++ suf ∧
              mid.map Char.toLower = location.toList.map Char.toLower) ∨
            ∃ pre mid suf : List Char, ps.location_description.toList = pre ++ mid ++ suf ∧
              mid.map Char.toLower = location.toList.map Char.toLower)) := by
  have h := userSearch_returns_iff haversineKm db query location ps hloc hne hco hlisted
    howner hveh
  refine ⟨h, fun hlit => ?_⟩
  rw [h, sqlLike_contains location ps.address hlit,
    sqlLike_contains location ps.location_description hlit]

theorem nagarQuery_vehicle (v : String) (h : nagarQuery.vehicle_type = some v) (_ : v ≠ "") :
    sampleSpace.vehicle_type = v ∨ sampleSpace.vehicle_type = "both" := by
  simp [nagarQuery] at h

/-- The sample space searched with the text `nagar`: it is returned. -/
theorem text_location_filter_witness :
    nagarQuery.location = some "nagar" ∧ hasCoords nagarQuery = false ∧
      sampleSpace ∈ sampleDb.parking_spaces ∧
      ∃ row ∈ (userSearch (fun _ _ _ _ => .finite 0) sampleDb nagarQuery).spaces,
        row.toParkingSpace = sampleSpace :=
  ⟨rfl, rfl, by simp [sampleDb],
    (text_location_filter (fun _ _ _ _ => .finite 0) sampleDb nagarQuery "nagar" sampleSpace rfl
      (by decide) rfl (by simp [sampleDb]) ⟨_, List.mem_cons_self _ _, rfl⟩
      nagarQuery_vehicle).1.mpr (Or.inl (by decide))⟩

/-- Claim C13 as stated fails on letter case: `nagar` is not a case-sensitive substring
of the address `T. Nagar` nor of the description `Street-side` of the sample space, yet
the search for `nagar` returns that space. -/
theorem nagar_found_despite_case :
    nagarQuery.location = some "nagar" ∧ hasCoords nagarQuery = false ∧
      sampleSpace ∈ sampleDb.parking_spaces ∧
      ¬ List.IsInfix "nagar".toList sampleSpace.address.toList ∧
      ¬ List.IsInfix "nagar".toList sampleSpace.location_description.toList ∧
      ∃ row ∈ (userSearch (fun _ _ _ _ => .finite 0) sampleDb nagarQuery).spaces,
        row.toParkingSpace = sampleSpace :=
  ⟨rfl, rfl, by simp [sampleDb], by decide, by decide,
    (userSearch_returns_iff (fun _ _ _ _ => .finite 0) sampleDb nagarQuery "nagar" sampleSpace rfl
      (by decide) rfl (by simp [sampleDb]) ⟨_, List.mem_cons_self _ _, rfl⟩
      nagarQuery_vehicle).mpr (Or.inl (by decide))⟩

/-! ## Evaluation in binary64 -/

theorem roundHalfEven_eq {y : ℚ} {m : ℤ} (h₁ : (m : ℚ) - 1 / 2 < y) (h₂ : y < m + 1 / 2) :
    roundHalfEven y = m := by
  unfold roundHalfEven
  have hfl := Int.floor_le y
  have hlt := Int.lt_floor_add_one y
  by_cases hc : y - Int.floor y < 1 / 2
  · rw [if_pos hc]
    have h1 : ((Int.floor y : ℤ) : ℚ) < ((m + 1 : ℤ) : ℚ) := by push_cast; linarith
    have h2 : ((m - 1 : ℤ) : ℚ) < ((Int.floor y : ℤ) : ℚ) := by push_cast; linarith
    have a := Int.cast_lt.mp h1
    have b := Int.cast_lt.mp h2
    omega
  · rw [if_neg hc]
    have hc' : (1 : ℚ) / 2 ≤ y - Int.floor y := not_lt.mp hc
    by_cases hd : (1 : ℚ) / 2 < y - Int.floor y
    · rw [if_pos hd]
      have h1 : ((Int.floor y : ℤ) : ℚ) < ((m : ℤ) : ℚ) := by linarith
      have h2 : ((m - 2 : ℤ) : ℚ) < ((Int.floor y : ℤ) : ℚ) := by push_cast; linarith
      have a := Int.cast_lt.mp h1
      have b := Int.cast_lt.mp h2
      omega
    · exfalso
      have he : y - Int.floor y = 1 / 2 := le_antisymm (not_lt.mp hd) hc'
      have h1 : ((2 * m - 2 : ℤ) : ℚ) < ((2 * Int.floor y : ℤ) : ℚ) := by push_cast; linarith
      have h2 : ((2 * Int.floor y : ℤ) : ℚ) < ((2 * m : ℤ) : ℚ) := by push_cast; linarith
      have a := Int.cast_lt.mp h1
      have b := Int.cast_lt.mp h2
      omega

theorem roundHalfEven_tie_down {y : ℚ} {n : ℤ} (h : y = n + 1 / 2) (heven : n % 2 = 0) :
    roundHalfEven y = n := by
  have hfl : Int.floor y = n := by
    rw [Int.floor_eq_iff]
    constructor <;> linarith
  unfold roundHalfEven
  rw [hfl]
  have h1 : ¬ (y - n < 1 / 2) := by rw [h]; norm_num
  have h2 : ¬ ((1 : ℚ) / 2 < y - n) := by rw [h]; norm_num
  rw [if_neg h1, if_neg h2, if_pos heven]

theorem roundHalfEven_tie_up {y : ℚ} {n : ℤ} (h : y = n - 1 / 2) (heven : n % 2 = 0) :
    roundHalfEven y = n := by
  have hfl : Int.floor y = n - 1 := by
    rw [Int.floor_eq_iff]
    push_cast
    constructor <;> linarith
  unfold roundHalfEven
  rw [hfl]
  have h1 : ¬ (y - ((n - 1 : ℤ) : ℚ) < 1 / 2) := by rw [h]; push_cast; norm_num
  have h2 : ¬ ((1 : ℚ) / 2 < y - ((n - 1 : ℤ) : ℚ)) := by rw [h]; push_cast; norm_num
  have h3 : ¬ ((n - 1) % 2 = 0) := by omega
  rw [if_neg h1, if_neg h2, if_neg h3]
  ring

theorem ulpExponent_eq {x : ℚ} {e : ℤ} (he : -1074 ≤ e) (hx : 0 < x)
    (hlo : (2 : ℚ) ^ (e + 52) ≤ x) (hhi : x < (2 : ℚ) ^ (e + 53)) : ulpExponent x = e := by
  unfold ulpExponent
  rw [abs_of_pos hx]
  have h1 : e + 52 ≤ Int.log 2 x :=
    (Int.zpow_le_iff_le_log (by norm_num) hx).mp (by simpa using hlo)
  have h2 : Int.log 2 x < e + 53 :=
    (Int.lt_zpow_iff_log_lt (by norm_num) hx).mp (by simpa using hhi)
  have : Int.log 2 x - 52 = e := by omega
  rw [this]
  exact max_eq_left he

/-- A positive `x` in the binade of exponent `e` that lies within half a unit in the
last place of `m * 2 ^ e` rounds to it. -/
theorem toBinary64_eq {x : ℚ} {m e : ℤ} (he : -1074 ≤ e) (hx : 0 < x)
    (hlo : (2 : ℚ) ^ (e + 52) ≤ x) (hhi : x < (2 : ℚ) ^ (e + 53))
    (h₁ : (m : ℚ) - 1 / 2 < x / 2 ^ e) (h₂ : x / 2 ^ e < m + 1 / 2) :
    toBinary64 x = m * 2 ^ e := by
  unfold toBinary64
  rw [ulpExponent_eq he hx hlo hhi, roundHalfEven_eq h₁ h₂]

theorem toBinary64_tie_down {x : ℚ} {n e : ℤ} (he : -1074 ≤ e) (hx : 0 < x)
    (hlo : (2 : ℚ) ^ (e + 52) ≤ x) (hhi : x < (2 : ℚ) ^ (e + 53))
    (h : x / 2 ^ e = n + 1 / 2) (heven : n % 2 = 0) :
    toBinary64 x = n * 2 ^ e := by
  unfold toBinary64
  rw [ulpExponent_eq he hx hlo hhi, roundHalfEven_tie_down h heven]

theorem toBinary64_tie_up {x : ℚ} {n e : ℤ} (he : -1074 ≤ e) (hx : 0 < x)
    (hlo : (2 : ℚ) ^ (e + 52) ≤ x) (hhi : x < (2 : ℚ) ^ (e + 53))
    (h : x / 2 ^ e = n - 1 / 2) (heven : n % 2 = 0) :
    toBinary64 x = n * 2 ^ e := by
  unfold toBinary64
  rw [ulpExponent_eq he hx hlo hhi, roundHalfEven_tie_up h heven]

theorem round2Binary64_eval {x v w : ℚ} {k : ℤ} (h₁ : toBinary64 (x * 100) = v)
    (h₂ : mathRound v = k) (h₃ : toBinary64 ((k : ℚ) / 100) = w) : round2Binary64 x = w := by
  unfold round2Binary64
  rw [h₁, h₂, h₃]

/-! ## Rounding to binary64 -/

theorem roundHalfEven_bounds (x : ℚ) :
    Int.floor x ≤ roundHalfEven x ∧ roundHalfEven x ≤ Int.floor x + 1 := by
  unfold roundHalfEven
  split_ifs <;> constructor <;> omega

theorem roundHalfEven_intCast (n : ℤ) : roundHalfEven (n : ℚ) = n := by
  unfold roundHalfEven
  simp

/-- Rounding to the nearest integer is monotone. -/
theorem roundHalfEven_mono {x y : ℚ} (h : x ≤ y) : roundHalfEven x ≤ roundHalfEven y := by
  have hf : Int.floor x ≤ Int.floor y := Int.floor_mono h
  rcases lt_or_eq_of_le hf with hlt | heq
  · have h1 := (roundHalfEven_bounds x).2
    have h2 := (roundHalfEven_bounds y).1
    omega
  · unfold roundHalfEven
    rw [heq]
    have hxy : x - Int.floor y ≤ y - Int.floor y := by linarith
    split_ifs <;> first | omega | (exfalso; linarith)

/-- Rounding to the nearest integer moves a number by at most one half. -/
theorem roundHalfEven_sub_le (x : ℚ) : |(roundHalfEven x : ℚ) - x| ≤ 1 / 2 := by
  unfold roundHalfEven
  have hfl := Int.floor_le x
  have hlt := Int.lt_floor_add_one x
  rw [abs_le]
  split_ifs <;> push_cast <;> constructor <;> linarith

/-- Rounding to the nearest integer, ties to even, is symmetric about 0. -/
theorem roundHalfEven_neg (x : ℚ) : roundHalfEven (-x) = - roundHalfEven x := by
  have hfl := Int.floor_le x
  have hlt := Int.lt_floor_add_one x
  by_cases hint : ((Int.floor x : ℤ) : ℚ) = x
  · rw [← hint, ← Int.cast_neg, roundHalfEven_intCast, roundHalfEven_intCast]
  · have hne : ((Int.floor x : ℤ) : ℚ) < x := lt_of_le_of_ne hfl hint
    have hfloor : Int.floor (-x) = - Int.floor x - 1 := by
      rw [Int.floor_eq_iff]
      push_cast
      constructor <;> linarith
    unfold roundHalfEven
    rw [hfloor]
    push_cast
    split_ifs <;> first | omega | (exfalso; linarith)

theorem ulpExponent_neg (x : ℚ) : ulpExponent (-x) = ulpExponent x := by
  unfold ulpExponent
  rw [abs_neg]

theorem toBinary64_neg (x : ℚ) : toBinary64 (-x) = - toBinary64 x := by
  unfold toBinary64
  rw [ulpExponent_neg, neg_div, roundHalfEven_neg]
  push_cast
  ring

theorem toBinary64_zero : toBinary64 0 = 0 := by
  unfold toBinary64
  rw [zero_div, ← Int.cast_zero, roundHalfEven_intCast]
  simp

theorem toBinary64_nonneg {x : ℚ} (hx : 0 ≤ x) : 0 ≤ toBinary64 x := by
  unfold toBinary64
  have h2 : (0 : ℚ) < 2 ^ ulpExponent x := by positivity
  have h0 : roundHalfEven ((0 : ℤ) : ℚ) ≤ roundHalfEven (x / 2 ^ ulpExponent x) :=
    roundHalfEven_mono (by rw [Int.cast_zero]; positivity)
  rw [roundHalfEven_intCast] at h0
  have : (0 : ℚ) ≤ (roundHalfEven (x / 2 ^ ulpExponent x) : ℚ) := by exact_mod_cast h0
  positivity

theorem roundHalfEven_le_of_le {x : ℚ} {n : ℤ} (h : x ≤ n) : roundHalfEven x ≤ n := by
  have := roundHalfEven_mono h
  rwa [roundHalfEven_intCast] at this

theorem le_roundHalfEven_of_le {x : ℚ} {n : ℤ} (h : (n : ℚ) ≤ x) : n ≤ roundHalfEven x := by
  have := roundHalfEven_mono h
  rwa [roundHalfEven_intCast] at this

/-- Rounding to binary64 is monotone on the positive numbers: within a binade by the
monotonicity of rounding to an integer, across binades because the power of two between
them is a binary64 number. -/
theorem toBinary64_mono_pos {x y : ℚ} (hx : 0 < x) (hxy : x ≤ y) :
    toBinary64 x ≤ toBinary64 y := by
  have hy : 0 < y := lt_of_lt_of_le hx hxy
  have hlog : Int.log 2 x ≤ Int.log 2 y := Int.log_mono_right hx hxy
  have hE : ulpExponent x ≤ ulpExponent y := by
    unfold ulpExponent
    rw [abs_of_pos hx, abs_of_pos hy]
    exact max_le_max (by omega) le_rfl
  rcases lt_or_eq_of_le hE with hlt | heq
  · -- a power of two lies between
    have hEx : -1074 ≤ ulpExponent x := le_max_right _ _
    have hEy : ulpExponent y = Int.log 2 y - 52 := by
      unfold ulpExponent at hlt ⊢
      rw [abs_of_pos hy] at hlt ⊢
      rw [abs_of_pos hx] at hlt
      apply max_eq_left
      by_contra hcon
      rw [max_eq_right (le_of_lt (not_le.mp hcon))] at hlt
      have := le_max_right (Int.log 2 x - 52) (-1074)
      omega
    have hLx : Int.log 2 x - 52 ≤ ulpExponent x := by
      unfold ulpExponent; rw [abs_of_pos hx]; exact le_max_left _ _
    have hLlt : Int.log 2 x + 1 ≤ Int.log 2 y := by omega
    have hxlt : x < (2 : ℚ) ^ (Int.log 2 x + 1) := by
      simpa using Int.lt_zpow_succ_log_self (b := 2) (by norm_num) x
    have hyge : (2 : ℚ) ^ (Int.log 2 y) ≤ y := by
      simpa using Int.zpow_log_le_self (b := 2) (by norm_num) hy
    have hxle : x ≤ (2 : ℚ) ^ (Int.log 2 y) :=
      le_trans (le_of_lt hxlt) (zpow_le_zpow_right₀ (by norm_num) hLlt)
    -- left side
    obtain ⟨k, hk⟩ : ∃ k : ℕ, Int.log 2 y - ulpExponent x = k :=
      ⟨(Int.log 2 y - ulpExponent x).toNat, (Int.toNat_of_nonneg (by omega)).symm⟩
    have hpow : (2 : ℚ) ^ (Int.log 2 y) = ((2 ^ k : ℤ) : ℚ) * 2 ^ ulpExponent x := by
      push_cast
      rw [← zpow_natCast, ← zpow_add₀ (by norm_num : (2 : ℚ) ≠ 0)]
      congr 1
      omega
    have h1 : toBinary64 x ≤ (2 : ℚ) ^ (Int.log 2 y) := by
      unfold toBinary64
      rw [hpow]
      have hpos : (0 : ℚ) < 2 ^ ulpExponent x := by positivity
      apply mul_le_mul_of_nonneg_right _ (le_of_lt hpos)
      have : x / 2 ^ ulpExponent x ≤ ((2 ^ k : ℤ) : ℚ) := by
        rw [div_le_iff₀ hpos, ← hpow]
        exact hxle
      exact_mod_cast roundHalfEven_le_of_le this
    have hpow' : (2 : ℚ) ^ (Int.log 2 y) = ((2 ^ 52 : ℤ) : ℚ) * 2 ^ ulpExponent y := by
      rw [hEy, zpow_sub₀ (by norm_num : (2 : ℚ) ≠ 0)]
      push_cast
      field_simp
      norm_num
      ring
    have h2 : (2 : ℚ) ^ (Int.log 2 y) ≤ toBinary64 y := by
      unfold toBinary64
      rw [hpow']
      have hpos : (0 : ℚ) < 2 ^ ulpExponent y := by positivity
      apply mul_le_mul_of_nonneg_right _ (le_of_lt hpos)
      have : ((2 ^ 52 : ℤ) : ℚ) ≤ y / 2 ^ ulpExponent y := by
        rw [le_div_iff₀ hpos, ← hpow']
        exact hyge
      exact_mod_cast le_roundHalfEven_of_le this
    exact le_trans h1 h2
  · unfold toBinary64
    rw [heq]
    have hpos : (0 : ℚ) < 2 ^ ulpExponent y := by positivity
    apply mul_le_mul_of_nonneg_right _ (le_of_lt hpos)
    exact_mod_cast roundHalfEven_mono (div_le_div_of_nonneg_right hxy (le_of_lt hpos))

/-- Rounding to binary64 is monotone. -/
theorem toBinary64_mono {x y : ℚ} (hxy : x ≤ y) : toBinary64 x ≤ toBinary64 y := by
  rcases lt_trichotomy 0 x with hx | hx | hx
  · exact toBinary64_mono_pos hx hxy
  · rw [← hx, toBinary64_zero]
    exact toBinary64_nonneg (hx ▸ hxy)
  · rcases le_or_lt 0 y with hy | hy
    · have h1 : toBinary64 x ≤ 0 := by
        have := toBinary64_nonneg (le_of_lt (neg_pos.mpr hx))
        rw [toBinary64_neg] at this
        linarith
      exact le_trans h1 (toBinary64_nonneg hy)
    · have := toBinary64_mono_pos (neg_pos.mpr hy) (neg_le_neg hxy)
      rw [toBinary64_neg, toBinary64_neg] at this
      linarith

/-- A multiple of its own unit in the last place is a binary64 number. -/
theorem toBinary64_eq_self {x : ℚ} (m : ℤ) (h : x = m * 2 ^ ulpExponent x) :
    toBinary64 x = x := by
  unfold toBinary64
  have hpos : (0 : ℚ) < 2 ^ ulpExponent x := by positivity
  have hq : x / 2 ^ ulpExponent x = m := by
    rw [div_eq_iff (ne_of_gt hpos)]
    exact h
  rw [hq, roundHalfEven_intCast]
  exact h.symm

/-- Every integer from 1 to `2 ^ 53` is a binary64 number. -/
theorem toBinary64_intCast {d : ℤ} (h0 : 0 < d) (h53 : d ≤ 2 ^ 53) :
    toBinary64 (d : ℚ) = d := by
  have hd : (0 : ℚ) < d := by exact_mod_cast h0
  have hL0 : 0 ≤ Int.log 2 (d : ℚ) := by
    apply (Int.zpow_le_iff_le_log (by norm_num) hd).mp
    have : (1 : ℚ) ≤ d := by exact_mod_cast h0
    simpa using this
  have hL54 : Int.log 2 (d : ℚ) < 54 := by
    apply (Int.lt_zpow_iff_log_lt (by norm_num) hd).mp
    have : (d : ℚ) ≤ 2 ^ 53 := by exact_mod_cast h53
    have h2 : ((2 : ℕ) : ℚ) ^ (54 : ℤ) = 2 ^ 54 := by norm_num
    rw [h2]
    linarith [show (2 : ℚ) ^ 53 < 2 ^ 54 by norm_num]
  have hE : ulpExponent (d : ℚ) = Int.log 2 (d : ℚ) - 52 := by
    unfold ulpExponent
    rw [abs_of_pos hd]
    exact max_eq_left (by omega)
  rcases le_or_lt (Int.log 2 (d : ℚ)) 52 with hle | hgt
  · obtain ⟨k, hk⟩ : ∃ k : ℕ, 52 - Int.log 2 (d : ℚ) = k :=
      ⟨(52 - Int.log 2 (d : ℚ)).toNat, (Int.toNat_of_nonneg (by omega)).symm⟩
    apply toBinary64_eq_self (d * 2 ^ k)
    rw [hE]
    have hexp : Int.log 2 (d : ℚ) - 52 = - (k : ℤ) := by omega
    rw [hexp, zpow_neg, zpow_natCast]
    push_cast
    field_simp
  · have h53' : Int.log 2 (d : ℚ) = 53 := by omega
    have hge : (2 : ℚ) ^ (53 : ℤ) ≤ d := by
      have := Int.zpow_log_le_self (b := 2) (by norm_num) hd
      rw [h53'] at this
      simpa using this
    have hdeq : d = 2 ^ 53 := by
      have : ((2 ^ 53 : ℤ) : ℚ) ≤ (d : ℚ) := by
        push_cast
        have h2 : (2 : ℚ) ^ (53 : ℤ) = 2 ^ 53 := by norm_num
        linarith
      have := Int.cast_le.mp this
      omega
    apply toBinary64_eq_self (2 ^ 52)
    rw [hE, h53', hdeq]
    norm_num

/-- Rounding to binary64 moves a number by at most half a unit in the last place. -/
theorem toBinary64_sub_le (x : ℚ) : |toBinary64 x - x| ≤ 2 ^ ulpExponent x / 2 := by
  unfold toBinary64
  have hpos : (0 : ℚ) < 2 ^ ulpExponent x := by positivity
  have h := roundHalfEven_sub_le (x / 2 ^ ulpExponent x)
  have heq : (roundHalfEven (x / 2 ^ ulpExponent x) : ℚ) * 2 ^ ulpExponent x - x
      = ((roundHalfEven (x / 2 ^ ulpExponent x) : ℚ) - x / 2 ^ ulpExponent x)
        * 2 ^ ulpExponent x := by
    field_simp
  rw [heq, abs_mul, abs_of_pos hpos]
  calc |(roundHalfEven (x / 2 ^ ulpExponent x) : ℚ) - x / 2 ^ ulpExponent x|
        * 2 ^ ulpExponent x
      ≤ 1 / 2 * 2 ^ ulpExponent x := mul_le_mul_of_nonneg_right h (le_of_lt hpos)
    _ = 2 ^ ulpExponent x / 2 := by ring

/-- The quotient of up to `2 ^ 53` ms by the milliseconds of an hour, rounded to
binary64, has the ceiling of the exact quotient: the rounding error is below the
`1 / 3600000` that separates a quotient from the next integer below it. -/
theorem mathCeil_toBinary64_div {d : ℤ} (h0 : 0 < d) (hb : d ≤ 2 ^ 53) :
    mathCeil (toBinary64 ((d : ℚ) / (1000 * 60 * 60))) = mathCeil ((d : ℚ) / (1000 * 60 * 60)) := by
  have hd : (0 : ℚ) < (d : ℚ) := by exact_mod_cast h0
  have hd53 : (d : ℚ) ≤ 2 ^ 53 := by exact_mod_cast hb
  set q : ℚ := (d : ℚ) / (1000 * 60 * 60) with hq
  have hdq : (d : ℚ) = q * 3600000 := by rw [hq]; field_simp; norm_num
  have hqpos : 0 < q := by positivity
  have hqd : q ≤ (d : ℚ) := by linarith
  have hc1 : q ≤ (Int.ceil q : ℚ) := Int.le_ceil q
  have hc2 : (Int.ceil q : ℚ) < q + 1 := Int.ceil_lt_add_one q
  have hcpos : 0 < Int.ceil q := Int.ceil_pos.mpr hqpos
  have hcle : Int.ceil q ≤ 2 ^ 53 := by
    have : Int.ceil q ≤ d := Int.ceil_le.mpr hqd
    omega
  unfold mathCeil
  rw [Int.ceil_eq_iff]
  constructor
  · have hms : (((Int.ceil q - 1) * 3600000 : ℤ) : ℚ) < (d : ℚ) := by
      push_cast
      linarith
    have hms' : (Int.ceil q - 1) * 3600000 + 1 ≤ d := by
      have := Int.cast_lt.mp hms
      omega
    have hqlow : (Int.ceil q : ℚ) - 1 + 1 / 3600000 ≤ q := by
      have : ((((Int.ceil q - 1) * 3600000 + 1 : ℤ)) : ℚ) ≤ (d : ℚ) := by
        exact_mod_cast hms'
      push_cast at this
      linarith
    have hq32 : q < (2 : ℚ) ^ (32 : ℤ) := by
      have : (2 : ℚ) ^ (32 : ℤ) = 4294967296 := by norm_num
      rw [this]
      have h53 : (2 : ℚ) ^ 53 = 9007199254740992 := by norm_num
      rw [h53] at hd53
      linarith
    have hL : Int.log 2 q < 32 :=
      (Int.lt_zpow_iff_log_lt (by norm_num) hqpos).mp (by simpa using hq32)
    have hE : ulpExponent q ≤ -21 := by
      unfold ulpExponent
      rw [abs_of_pos hqpos]
      exact max_le (by omega) (by norm_num)
    have hulp : (2 : ℚ) ^ ulpExponent q ≤ 2 ^ (-21 : ℤ) :=
      zpow_le_zpow_right₀ (by norm_num) hE
    have h21 : (2 : ℚ) ^ (-21 : ℤ) = 1 / 2097152 := by norm_num
    rw [h21] at hulp
    have herr := (abs_le.mp (toBinary64_sub_le q)).1
    linarith
  · have := toBinary64_mono hc1
    rwa [toBinary64_intCast hcpos hcle] at this

/-- Up to `2 ^ 53` ms the billed hours in binary64 are the billed hours in exact
arithmetic. -/
theorem hoursBinary64_eq_hours (start stop : ℤ) (hlt : start < stop)
    (hb : stop - start ≤ 2 ^ 53) : hoursBinary64 start stop = hours start stop := by
  unfold hoursBinary64 hours
  rw [toBinary64_intCast (sub_pos.mpr hlt) hb, mathCeil_toBinary64_div (sub_pos.mpr hlt) hb]

/-! ## Payout invariant -/

/-- Claim C16. Payout invariant: a booking that goes through and a cancel that goes
through both keep `pending_payout + completed_payout ≤ total_earnings` (missing values
read as 0) on every account on which it held, and leave `completed_payout` as it was,
at 0. The accounts are those the code can hold: no statement of `server.js` writes
`completed_payout`, so it is the 0 that `db.js` declares as its default. The last two
parts say the same of the values as the `REAL` columns store them: the credit and the
reversal, each rounded to binary64, keep money pending from exceeding money earned. -/
theorem payout_invariant (db₁ : Db) (userId₁ id start stop : ℤ) (space : ParkingSpace)
    (db₂ : Db) (userId₂ bookingId now refundDate : ℤ)
    (hs : selectSpace db₁ id = some space) (hlt : start < stop)
    (hc : (userBookingsCancel db₂ userId₂ bookingId now refundDate).1 = .cancelled)
    (hpaid₁ : ∀ u ∈ db₁.users, u.completed_payout.getD 0 = 0)
    (hpaid₂ : ∀ u ∈ db₂.users, u.completed_payout.getD 0 = 0) :
    List.Forall₂
        (fun u u' : User =>
          u'.completed_payout = u.completed_payout ∧ u'.completed_payout.getD 0 = 0 ∧
            (u.pending_payout.getD 0 + u.completed_payout.getD 0 ≤ u.total_earnings.getD 0 →
              u'.pending_payout.getD 0 + u'.completed_payout.getD 0
                ≤ u'.total_earnings.getD 0))
        db₁.users (userBook db₁ userId₁ id (.instant start) (.instant stop)).2.users ∧
      List.Forall₂
        (fun u u' : User =>
          u'.completed_payout = u.completed_payout ∧ u'.completed_payout.getD 0 = 0 ∧
            (u.pending_payout.getD 0 + u.completed_payout.getD 0 ≤ u.total_earnings.getD 0 →
              u'.pending_payout.getD 0 + u'.completed_payout.getD 0
                ≤ u'.total_earnings.getD 0))
        db₂.users (userBookingsCancel db₂ userId₂ bookingId now refundDate).2.users ∧
      (∀ pending earned earnings : ℚ, pending ≤ earned →
        creditBinary64 pending earnings ≤ creditBinary64 earned earnings) ∧
      (∀ pending earned earnings : ℚ, pending ≤ earned →
        reverseBinary64 pending earnings ≤ reverseBinary64 earned earnings) := by
  refine ⟨?_, ?_, ?_, ?_⟩
  · rw [userBook_confirmed db₁ userId₁ id start stop space hs hlt]
    apply forall₂_map_self
    intro u hmem
    unfold creditOwner
    by_cases hu : u.id = space.owner_id
    · rw [if_pos hu]
      refine ⟨rfl, hpaid₁ u hmem, fun hinv => ?_⟩
      simp only [Option.getD_some]
      linarith
    · rw [if_neg hu]
      exact ⟨rfl, hpaid₁ u hmem, fun hinv => hinv⟩
  · obtain ⟨booking, ps, start₀, hsel, hst, hstart, hnow⟩ :=
      userBookingsCancel_cancelled_inv db₂ userId₂ bookingId now refundDate hc
    rw [userBookingsCancel_cancelled db₂ userId₂ bookingId now refundDate start₀ booking ps
      hsel hst hstart hnow]
    apply forall₂_map_self
    intro u hmem
    unfold reverseOwner
    rw [numOr_zero]
    by_cases hu : u.id = ps.owner_id
    · rw [if_pos hu]
      refine ⟨rfl, hpaid₂ u hmem, fun hinv => ?_⟩
      simp only [Option.getD_some]
      exact max_zero_sub_add_le hinv (Or.inr (le_of_eq (hpaid₂ u hmem)))
    · rw [if_neg hu]
      exact ⟨rfl, hpaid₂ u hmem, fun hinv => hinv⟩
  · intro pending earned earnings hle
    exact toBinary64_mono (by linarith)
  · intro pending earned earnings hle
    exact max_le_max le_rfl (toBinary64_mono (by linarith))

/-- The sample space booked and the sample booking cancelled, on accounts with nothing
paid out: both lists of accounts keep their length. -/
theorem payout_invariant_witness :
    selectSpace sampleDb 1 = some sampleSpace ∧ (28800000 : ℤ) < 37800000 ∧
      (userBookingsCancel bookedDb 2 1 18000000 18000000).1 = .cancelled ∧
      (∀ u ∈ sampleDb.users, u.completed_payout.getD 0 = 0) ∧
      (∀ u ∈ bookedDb.users, u.completed_payout.getD 0 = 0) ∧
      (userBookingsCancel bookedDb 2 1 18000000 18000000).2.users.length = 2 :=
  ⟨selectSpace_sampleDb, by decide, cancel_bookedDb, by simp [sampleDb], by simp [bookedDb],
    ((payout_invariant sampleDb 2 1 28800000 37800000 sampleSpace bookedDb 2 1 18000000
      18000000 selectSpace_sampleDb (by decide) cancel_bookedDb (by simp [sampleDb])
      (by simp [bookedDb])).2.1.length_eq).symm.trans rfl⟩

/-! ## Billed hours -/

/-- Claim C2, as amended. Duration rounding: for every booking interval whose end is
strictly after its start and at most `2 ^ 53` ms after it, the billed hours that the
handler computes in binary64 are the ceiling of `end - start` in hours: they are at
least 1, cover the interval, and are below every number of hours that covers it, and
they are the `hours` that the booking handler above bills; a 1-minute and a 60-minute
booking bill 1 hour, a 61-minute booking bills 2. -/
theorem hours_is_ceiling (start stop : ℤ) (h : start < stop) (hb : stop - start ≤ 2 ^ 53) :
    1 ≤ hoursBinary64 start stop ∧
      stop - start ≤ hoursBinary64 start stop * 3600000 ∧
      (∀ n : ℤ, stop - start ≤ n * 3600000 → hoursBinary64 start stop ≤ n) ∧
      hoursBinary64 start stop = hours start stop ∧
      hoursBinary64 0 60000 = 1 ∧ hoursBinary64 0 3600000 = 1 ∧
      hoursBinary64 0 3660000 = 2 := by
  have he := hoursBinary64_eq_hours start stop h hb
  obtain ⟨h₁, h₂, h₃⟩ := hours_least start stop h
  rw [he]
  refine ⟨h₁, h₂, h₃, rfl, ?_, ?_, ?_⟩
  · rw [hoursBinary64_eq_hours 0 60000 (by norm_num) (by norm_num)]
    exact hours_eq (by norm_num) (by norm_num)
  · rw [hoursBinary64_eq_hours 0 3600000 (by norm_num) (by norm_num)]
    exact hours_eq (by norm_num) (by norm_num)
  · rw [hoursBinary64_eq_hours 0 3660000 (by norm_num) (by norm_num)]
    exact hours_eq (by norm_num) (by norm_num)

/-- A 90-minute booking bills at least 1 and at most 2 hours. -/
theorem hours_is_ceiling_witness :
    (0 : ℤ) < 5400000 ∧ (5400000 : ℤ) - 0 ≤ 2 ^ 53 ∧
      1 ≤ hoursBinary64 0 5400000 ∧ hoursBinary64 0 5400000 ≤ 2 :=
  ⟨by decide, by norm_num, (hours_is_ceiling 0 5400000 (by decide) (by norm_num)).1,
    (hours_is_ceiling 0 5400000 (by decide) (by norm_num)).2.2.1 2 (by decide)⟩

/-! ## Amounts in binary64 -/

/-- Claim C1, at the failing input. Commission split in binary64: for a 1-hour booking
at 12.375 per hour the handler stores a commission of 3.71 and owner earnings of 8.66,
while the total rounded to hundredths is 12.38: the two amounts fall a cent short of it,
also when they are added in binary64. In exact arithmetic the same booking splits into
3.71 and 8.67. -/
theorem commission_split_binary64 :
    totalAmountBinary64 1 (99 / 8) = 99 / 8 ∧
      platformCommissionBinary64 (toBinary64 COMMISSION_RATE) (99 / 8)
        = toBinary64 (371 / 100) ∧
      ownerEarningsBinary64 (99 / 8) (toBinary64 (371 / 100)) = toBinary64 (866 / 100) ∧
      round2Binary64 (99 / 8) = toBinary64 (1238 / 100) ∧
      toBinary64 (371 / 100) + toBinary64 (866 / 100) < toBinary64 (1238 / 100) ∧
      toBinary64 (toBinary64 (371 / 100) + toBinary64 (866 / 100))
        ≠ toBinary64 (1238 / 100) ∧
      platformCommission COMMISSION_RATE (99 / 8) = 371 / 100 ∧
      ownerEarnings (99 / 8) (371 / 100) = 867 / 100 := by
  have hrate : toBinary64 (COMMISSION_RATE) = (((5404319552844595 : ℤ) : ℚ) * (2 : ℚ) ^ (-54 : ℤ)) :=
    toBinary64_eq (by norm_num [COMMISSION_RATE]) (by norm_num [COMMISSION_RATE]) (by norm_num [COMMISSION_RATE]) (by norm_num [COMMISSION_RATE])
      (by norm_num [COMMISSION_RATE]) (by norm_num [COMMISSION_RATE])
  have htotal : toBinary64 (((1 : ℤ) : ℚ) * (99 / 8 : ℚ)) = (((6966505673588736 : ℤ) : ℚ) * (2 : ℚ) ^ (-49 : ℤ)) :=
    toBinary64_eq (by norm_num) (by norm_num) (by norm_num) (by norm_num)
      (by norm_num) (by norm_num)
  have h3 : toBinary64 ((99 / 8 : ℚ) * (((5404319552844595 : ℤ) : ℚ) * (2 : ℚ) ^ (-54 : ℤ))) = (((8359806808306483 : ℤ) : ℚ) * (2 : ℚ) ^ (-51 : ℤ)) :=
    toBinary64_eq (by norm_num) (by norm_num) (by norm_num) (by norm_num)
      (by norm_num) (by norm_num)
  have h4 : toBinary64 ((((8359806808306483 : ℤ) : ℚ) * (2 : ℚ) ^ (-51 : ℤ)) * 100) = (((6531099068989440 : ℤ) : ℚ) * (2 : ℚ) ^ (-44 : ℤ)) :=
    toBinary64_eq (by norm_num) (by norm_num) (by norm_num) (by norm_num)
      (by norm_num) (by norm_num)
  have h5 : mathRound (((6531099068989440 : ℤ) : ℚ) * (2 : ℚ) ^ (-44 : ℤ)) = 371 :=
    mathRound_eq (by norm_num) (by norm_num)
  have h6 : toBinary64 ((((371 : ℤ) : ℤ) : ℚ) / 100) = (((8354177308772270 : ℤ) : ℚ) * (2 : ℚ) ^ (-51 : ℤ)) :=
    toBinary64_eq (by norm_num) (by norm_num) (by norm_num) (by norm_num)
      (by norm_num) (by norm_num)
  have h7 : round2Binary64 (((8359806808306483 : ℤ) : ℚ) * (2 : ℚ) ^ (-51 : ℤ)) = (((8354177308772270 : ℤ) : ℚ) * (2 : ℚ) ^ (-51 : ℤ)) :=
    round2Binary64_eval h4 h5 h6
  have h8 : toBinary64 ((99 / 8 : ℚ) - (((8354177308772270 : ℤ) : ℚ) * (2 : ℚ) ^ (-51 : ℤ))) = (((4877961346395668 : ℤ) : ℚ) * (2 : ℚ) ^ (-49 : ℤ)) :=
    toBinary64_tie_down (by norm_num) (by norm_num) (by norm_num) (by norm_num)
      (by norm_num) (by norm_num)
  have h9 : toBinary64 ((((4877961346395668 : ℤ) : ℚ) * (2 : ℚ) ^ (-49 : ℤ)) * 100) = (((7621814603743231 : ℤ) : ℚ) * (2 : ℚ) ^ (-43 : ℤ)) :=
    toBinary64_eq (by norm_num) (by norm_num) (by norm_num) (by norm_num)
      (by norm_num) (by norm_num)
  have h10 : mathRound (((7621814603743231 : ℤ) : ℚ) * (2 : ℚ) ^ (-43 : ℤ)) = 866 :=
    mathRound_eq (by norm_num) (by norm_num)
  have h11 : toBinary64 ((((866 : ℤ) : ℤ) : ℚ) / 100) = (((4875146596628562 : ℤ) : ℚ) * (2 : ℚ) ^ (-49 : ℤ)) :=
    toBinary64_eq (by norm_num) (by norm_num) (by norm_num) (by norm_num)
      (by norm_num) (by norm_num)
  have h12 : round2Binary64 (((4877961346395668 : ℤ) : ℚ) * (2 : ℚ) ^ (-49 : ℤ)) = (((4875146596628562 : ℤ) : ℚ) * (2 : ℚ) ^ (-49 : ℤ)) :=
    round2Binary64_eval h9 h10 h11
  have h13 : toBinary64 ((99 / 8 : ℚ) * 100) = (((5442582557491200 : ℤ) : ℚ) * (2 : ℚ) ^ (-42 : ℤ)) :=
    toBinary64_eq (by norm_num) (by norm_num) (by norm_num) (by norm_num)
      (by norm_num) (by norm_num)
  have h14 : mathRound (((5442582557491200 : ℤ) : ℚ) * (2 : ℚ) ^ (-42 : ℤ)) = 1238 :=
    mathRound_eq (by norm_num) (by norm_num)
  have h15 : toBinary64 ((((1238 : ℤ) : ℤ) : ℚ) / 100) = (((6969320423355843 : ℤ) : ℚ) * (2 : ℚ) ^ (-49 : ℤ)) :=
    toBinary64_eq (by norm_num) (by norm_num) (by norm_num) (by norm_num)
      (by norm_num) (by norm_num)
  have h16 : round2Binary64 (99 / 8 : ℚ) = (((6969320423355843 : ℤ) : ℚ) * (2 : ℚ) ^ (-49 : ℤ)) :=
    round2Binary64_eval h13 h14 h15
  have e371 : toBinary64 (371 / 100) = (((8354177308772270 : ℤ) : ℚ) * (2 : ℚ) ^ (-51 : ℤ)) :=
    toBinary64_eq (by norm_num) (by norm_num) (by norm_num) (by norm_num)
      (by norm_num) (by norm_num)
  have e866 : toBinary64 (866 / 100) = (((4875146596628562 : ℤ) : ℚ) * (2 : ℚ) ^ (-49 : ℤ)) :=
    toBinary64_eq (by norm_num) (by norm_num) (by norm_num) (by norm_num)
      (by norm_num) (by norm_num)
  have e1238 : toBinary64 (1238 / 100) = (((6969320423355843 : ℤ) : ℚ) * (2 : ℚ) ^ (-49 : ℤ)) :=
    toBinary64_eq (by norm_num) (by norm_num) (by norm_num) (by norm_num)
      (by norm_num) (by norm_num)
  have hsum : toBinary64 ((((8354177308772270 : ℤ) : ℚ) * (2 : ℚ) ^ (-51 : ℤ)) + (((4875146596628562 : ℤ) : ℚ) * (2 : ℚ) ^ (-49 : ℤ))) = (((6963690923821630 : ℤ) : ℚ) * (2 : ℚ) ^ (-49 : ℤ)) :=
    toBinary64_tie_up (by norm_num) (by norm_num) (by norm_num) (by norm_num)
      (by norm_num) (by norm_num)
  refine ⟨?_, ?_, ?_, ?_, ?_, ?_, ?_, ?_⟩
  · unfold totalAmountBinary64
    rw [htotal]
    norm_num
  · unfold platformCommissionBinary64
    rw [hrate, h3, h7, e371]
  · unfold ownerEarningsBinary64
    rw [e371, h8, h12, e866]
  · rw [h16, e1238]
  · rw [e371, e866, e1238]
    norm_num
  · rw [e371, e866, hsum, e1238]
    norm_num
  · unfold platformCommission
    rw [round2_eq (k := 371) (by norm_num [COMMISSION_RATE]) (by norm_num [COMMISSION_RATE])]
    norm_num
  · unfold ownerEarnings
    rw [round2_eq (k := 867) (by norm_num) (by norm_num)]
    norm_num

/-- Claim C2 as stated fails beyond `2 ^ 53` ms: from the earliest JavaScript date,
-8640000000000000 ms, to 7200000000000001 ms, both valid dates, the handler bills
4400000000 hours, which do not cover the interval; its ceiling in hours is 4400000001. -/
theorem hours_binary64_underbills :
    hoursBinary64 (-8640000000000000) 7200000000000001 = 4400000000 ∧
      hours (-8640000000000000) 7200000000000001 = 4400000001 ∧
      ¬ (7200000000000001 - (-8640000000000000) ≤ (4400000000 : ℤ) * 3600000) := by
  have hdiff : toBinary64 (((7200000000000001 - -8640000000000000 : ℤ) : ℚ)) = (((7920000000000000 : ℤ) : ℚ) * (2 : ℚ) ^ (1 : ℤ)) :=
    toBinary64_tie_down (by norm_num) (by norm_num) (by norm_num) (by norm_num)
      (by norm_num) (by norm_num)
  have hquot : toBinary64 ((((7920000000000000 : ℤ) : ℚ) * (2 : ℚ) ^ (1 : ℤ)) / (1000 * 60 * 60)) = (((4613734400000000 : ℤ) : ℚ) * (2 : ℚ) ^ (-20 : ℤ)) :=
    toBinary64_eq (by norm_num) (by norm_num) (by norm_num) (by norm_num)
      (by norm_num) (by norm_num)
  have hceil : mathCeil (((4613734400000000 : ℤ) : ℚ) * (2 : ℚ) ^ (-20 : ℤ)) = 4400000000 :=
    mathCeil_eq (by norm_num) (by norm_num)
  refine ⟨?_, hours_eq (by norm_num) (by norm_num), by norm_num⟩
  unfold hoursBinary64
  rw [show 7200000000000001 - (-8640000000000000) = (7200000000000001 - -8640000000000000 : ℤ) from rfl, hdiff, hquot, hceil]

/-- Claim C3, at the failing input. Commission in binary64: for a 3-hour booking at 20.25
per hour the total is 60.75 and the handler stores a commission of 18.22, although 30%
of 60.75 is 18.225, whose half-up hundredth is 18.23, the commission in exact
arithmetic. For 3 hours at 10.05 per hour the stored total lies above the binary64
number nearest to 30.15. The scenario of the pricing rules comes out as they say: at 40
per hour, 08:00-10:30 bills 3 hours, a total of 120, a commission of 36 and owner
earnings of 84. -/
theorem commission_binary64_rounds_down :
    hoursBinary64 0 10800000 = 3 ∧
      totalAmountBinary64 3 (81 / 4) = 243 / 4 ∧
      platformCommissionBinary64 (toBinary64 COMMISSION_RATE) (243 / 4)
        = toBinary64 (1822 / 100) ∧
      toBinary64 (1822 / 100) < 1823 / 100 - 1 / 200 ∧
      (243 / 4 : ℚ) * (3 / 10) = 18225 / 1000 ∧
      platformCommission COMMISSION_RATE (243 / 4) = 1823 / 100 ∧
      toBinary64 (3015 / 100) < totalAmountBinary64 3 (toBinary64 (1005 / 100)) ∧
      hoursBinary64 28800000 37800000 = 3 ∧
      totalAmountBinary64 3 40 = 120 ∧
      platformCommissionBinary64 (toBinary64 COMMISSION_RATE) 120 = 36 ∧
      ownerEarningsBinary64 120 36 = 84 := by
  have hrate : toBinary64 (COMMISSION_RATE) = (((5404319552844595 : ℤ) : ℚ) * (2 : ℚ) ^ (-54 : ℤ)) :=
    toBinary64_eq (by norm_num [COMMISSION_RATE]) (by norm_num [COMMISSION_RATE]) (by norm_num [COMMISSION_RATE]) (by norm_num [COMMISSION_RATE])
      (by norm_num [COMMISSION_RATE]) (by norm_num [COMMISSION_RATE])
  have hdiff : toBinary64 (((10800000 - 0 : ℤ) : ℚ)) = (((5798205849600000 : ℤ) : ℚ) * (2 : ℚ) ^ (-29 : ℤ)) :=
    toBinary64_eq (by norm_num) (by norm_num) (by norm_num) (by norm_num)
      (by norm_num) (by norm_num)
  have hquot : toBinary64 ((((5798205849600000 : ℤ) : ℚ) * (2 : ℚ) ^ (-29 : ℤ)) / (1000 * 60 * 60)) = (((6755399441055744 : ℤ) : ℚ) * (2 : ℚ) ^ (-51 : ℤ)) :=
    toBinary64_eq (by norm_num) (by norm_num) (by norm_num) (by norm_num)
      (by norm_num) (by norm_num)
  have htotal : toBinary64 (((3 : ℤ) : ℚ) * (81 / 4 : ℚ)) = (((8549802417586176 : ℤ) : ℚ) * (2 : ℚ) ^ (-47 : ℤ)) :=
    toBinary64_eq (by norm_num) (by norm_num) (by norm_num) (by norm_num)
      (by norm_num) (by norm_num)
  have h5 : toBinary64 ((243 / 4 : ℚ) * (((5404319552844595 : ℤ) : ℚ) * (2 : ℚ) ^ (-54 : ℤ))) = (((5129881450551705 : ℤ) : ℚ) * (2 : ℚ) ^ (-48 : ℤ)) :=
    toBinary64_eq (by norm_num) (by norm_num) (by norm_num) (by norm_num)
      (by norm_num) (by norm_num)
  have h6 : toBinary64 ((((5129881450551705 : ℤ) : ℚ) * (2 : ℚ) ^ (-48 : ℤ)) * 100) = (((8015439766487039 : ℤ) : ℚ) * (2 : ℚ) ^ (-42 : ℤ)) :=
    toBinary64_eq (by norm_num) (by norm_num) (by norm_num) (by norm_num)
      (by norm_num) (by norm_num)
  have h7 : mathRound (((8015439766487039 : ℤ) : ℚ) * (2 : ℚ) ^ (-42 : ℤ)) = 1822 :=
    mathRound_eq (by norm_num) (by norm_num)
  have h8 : toBinary64 ((((1822 : ℤ) : ℤ) : ℚ) / 100) = (((5128474075668152 : ℤ) : ℚ) * (2 : ℚ) ^ (-48 : ℤ)) :=
    toBinary64_eq (by norm_num) (by norm_num) (by norm_num) (by norm_num)
      (by norm_num) (by norm_num)
  have h9 : round2Binary64 (((5129881450551705 : ℤ) : ℚ) * (2 : ℚ) ^ (-48 : ℤ)) = (((5128474075668152 : ℤ) : ℚ) * (2 : ℚ) ^ (-48 : ℤ)) :=
    round2Binary64_eval h6 h7 h8
  have e1822 : toBinary64 (1822 / 100) = (((5128474075668152 : ℤ) : ℚ) * (2 : ℚ) ^ (-48 : ℤ)) :=
    toBinary64_eq (by norm_num) (by norm_num) (by norm_num) (by norm_num)
      (by norm_num) (by norm_num)
  have hprice : toBinary64 (1005 / 100) = (((5657647031884186 : ℤ) : ℚ) * (2 : ℚ) ^ (-49 : ℤ)) :=
    toBinary64_eq (by norm_num) (by norm_num) (by norm_num) (by norm_num)
      (by norm_num) (by norm_num)
  have htotal₃ : toBinary64 (((3 : ℤ) : ℚ) * (((5657647031884186 : ℤ) : ℚ) * (2 : ℚ) ^ (-49 : ℤ))) = (((8486470547826279 : ℤ) : ℚ) * (2 : ℚ) ^ (-48 : ℤ)) :=
    toBinary64_eq (by norm_num) (by norm_num) (by norm_num) (by norm_num)
      (by norm_num) (by norm_num)
  have e3015 : toBinary64 (3015 / 100) = (((8486470547826278 : ℤ) : ℚ) * (2 : ℚ) ^ (-48 : ℤ)) :=
    toBinary64_eq (by norm_num) (by norm_num) (by norm_num) (by norm_num)
      (by norm_num) (by norm_num)
  have htotal₂ : toBinary64 (((3 : ℤ) : ℚ) * (40 : ℚ)) = (((8444249301319680 : ℤ) : ℚ) * (2 : ℚ) ^ (-46 : ℤ)) :=
    toBinary64_eq (by norm_num) (by norm_num) (by norm_num) (by norm_num)
      (by norm_num) (by norm_num)
  have h15 : toBinary64 ((120 : ℚ) * (((5404319552844595 : ℤ) : ℚ) * (2 : ℚ) ^ (-54 : ℤ))) = (((5066549580791808 : ℤ) : ℚ) * (2 : ℚ) ^ (-47 : ℤ)) :=
    toBinary64_eq (by norm_num) (by norm_num) (by norm_num) (by norm_num)
      (by norm_num) (by norm_num)
  have h16 : toBinary64 ((((5066549580791808 : ℤ) : ℚ) * (2 : ℚ) ^ (-47 : ℤ)) * 100) = (((7916483719987200 : ℤ) : ℚ) * (2 : ℚ) ^ (-41 : ℤ)) :=
    toBinary64_eq (by norm_num) (by norm_num) (by norm_num) (by norm_num)
      (by norm_num) (by norm_num)
  have h17 : mathRound (((7916483719987200 : ℤ) : ℚ) * (2 : ℚ) ^ (-41 : ℤ)) = 3600 :=
    mathRound_eq (by norm_num) (by norm_num)
  have h18 : toBinary64 ((((3600 : ℤ) : ℤ) : ℚ) / 100) = (((5066549580791808 : ℤ) : ℚ) * (2 : ℚ) ^ (-47 : ℤ)) :=
    toBinary64_eq (by norm_num) (by norm_num) (by norm_num) (by norm_num)
      (by norm_num) (by norm_num)
  have h19 : round2Binary64 (((5066549580791808 : ℤ) : ℚ) * (2 : ℚ) ^ (-47 : ℤ)) = (((5066549580791808 : ℤ) : ℚ) * (2 : ℚ) ^ (-47 : ℤ)) :=
    round2Binary64_eval h16 h17 h18
  have h20 : toBinary64 ((120 : ℚ) - 36) = (((5910974510923776 : ℤ) : ℚ) * (2 : ℚ) ^ (-46 : ℤ)) :=
    toBinary64_eq (by norm_num) (by norm_num) (by norm_num) (by norm_num)
      (by norm_num) (by norm_num)
  have h21 : toBinary64 ((((5910974510923776 : ℤ) : ℚ) * (2 : ℚ) ^ (-46 : ℤ)) * 100) = (((4617948836659200 : ℤ) : ℚ) * (2 : ℚ) ^ (-39 : ℤ)) :=
    toBinary64_eq (by norm_num) (by norm_num) (by norm_num) (by norm_num)
      (by norm_num) (by norm_num)
  have h22 : mathRound (((4617948836659200 : ℤ) : ℚ) * (2 : ℚ) ^ (-39 : ℤ)) = 8400 :=
    mathRound_eq (by norm_num) (by norm_num)
  have h23 : toBinary64 ((((8400 : ℤ) : ℤ) : ℚ) / 100) = (((5910974510923776 : ℤ) : ℚ) * (2 : ℚ) ^ (-46 : ℤ)) :=
    toBinary64_eq (by norm_num) (by norm_num) (by norm_num) (by norm_num)
      (by norm_num) (by norm_num)
  have h24 : round2Binary64 (((5910974510923776 : ℤ) : ℚ) * (2 : ℚ) ^ (-46 : ℤ)) = (((5910974510923776 : ℤ) : ℚ) * (2 : ℚ) ^ (-46 : ℤ)) :=
    round2Binary64_eval h21 h22 h23
  have hceil : mathCeil (((6755399441055744 : ℤ) : ℚ) * (2 : ℚ) ^ (-51 : ℤ)) = 3 :=
    mathCeil_eq (by norm_num) (by norm_num)
  refine ⟨?_, ?_, ?_, ?_, by norm_num, ?_, ?_, ?_, ?_, ?_, ?_⟩
  · unfold hoursBinary64
    rw [hdiff, hquot, hceil]
  · unfold totalAmountBinary64
    rw [htotal]
    norm_num
  · unfold platformCommissionBinary64
    rw [hrate, h5, h9, e1822]
  · rw [e1822]
    norm_num
  · unfold platformCommission
    rw [round2_eq (k := 1823) (by norm_num [COMMISSION_RATE]) (by norm_num [COMMISSION_RATE])]
    norm_num
  · unfold totalAmountBinary64
    rw [hprice, htotal₃, e3015]
    norm_num
  · rw [hoursBinary64_eq_hours 28800000 37800000 (by norm_num) (by norm_num)]
    exact hours_eq (by norm_num) (by norm_num)
  · unfold totalAmountBinary64
    rw [htotal₂]
    norm_num
  · unfold platformCommissionBinary64
    rw [hrate, h15, h19]
    norm_num
  · unfold ownerEarningsBinary64
    rw [h20, h24]
    norm_num

/-- Claim C18, at the failing input. Round trip in binary64: an owner starts at 0, is
credited the earnings 8.57 of a 1-hour booking at 12.24 per hour, then the earnings 84
of a 3-hour booking at 40 per hour, and that second booking is cancelled: the reversal
leaves the balance below 8.57 (at 8.569999999999993), not at its value before the
second booking. -/
theorem round_trip_binary64_drifts :
    ownerEarningsBinary64 (totalAmountBinary64 1 (toBinary64 (1224 / 100)))
        (platformCommissionBinary64 (toBinary64 COMMISSION_RATE)
          (totalAmountBinary64 1 (toBinary64 (1224 / 100))))
        = toBinary64 (857 / 100) ∧
      creditBinary64 0 (toBinary64 (857 / 100)) = toBinary64 (857 / 100) ∧
      ownerEarningsBinary64 (totalAmountBinary64 3 40)
        (platformCommissionBinary64 (toBinary64 COMMISSION_RATE) (totalAmountBinary64 3 40))
        = 84 ∧
      reverseBinary64 (creditBinary64 (toBinary64 (857 / 100)) 84) 84
        = toBinary64 (857 / 100) - 1 / 140737488355328 ∧
      reverseBinary64 (creditBinary64 (toBinary64 (857 / 100)) 84) 84
        < toBinary64 (857 / 100) := by
  have hrate : toBinary64 (COMMISSION_RATE) = (((5404319552844595 : ℤ) : ℚ) * (2 : ℚ) ^ (-54 : ℤ)) :=
    toBinary64_eq (by norm_num [COMMISSION_RATE]) (by norm_num [COMMISSION_RATE]) (by norm_num [COMMISSION_RATE]) (by norm_num [COMMISSION_RATE])
      (by norm_num [COMMISSION_RATE]) (by norm_num [COMMISSION_RATE])
  have hprice : toBinary64 (1224 / 100) = (((6890507429876859 : ℤ) : ℚ) * (2 : ℚ) ^ (-49 : ℤ)) :=
    toBinary64_eq (by norm_num) (by norm_num) (by norm_num) (by norm_num)
      (by norm_num) (by norm_num)
  have htotal₁ : toBinary64 (((1 : ℤ) : ℚ) * (((6890507429876859 : ℤ) : ℚ) * (2 : ℚ) ^ (-49 : ℤ))) = (((6890507429876859 : ℤ) : ℚ) * (2 : ℚ) ^ (-49 : ℤ)) :=
    toBinary64_eq (by norm_num) (by norm_num) (by norm_num) (by norm_num)
      (by norm_num) (by norm_num)
  have h4 : toBinary64 ((((6890507429876859 : ℤ) : ℚ) * (2 : ℚ) ^ (-49 : ℤ)) * (((5404319552844595 : ℤ) : ℚ) * (2 : ℚ) ^ (-54 : ℤ))) = (((8268608915852230 : ℤ) : ℚ) * (2 : ℚ) ^ (-51 : ℤ)) :=
    toBinary64_eq (by norm_num) (by norm_num) (by norm_num) (by norm_num)
      (by norm_num) (by norm_num)
  have h5 : toBinary64 ((((8268608915852230 : ℤ) : ℚ) * (2 : ℚ) ^ (-51 : ℤ)) * 100) = (((6459850715509555 : ℤ) : ℚ) * (2 : ℚ) ^ (-44 : ℤ)) :=
    toBinary64_eq (by norm_num) (by norm_num) (by norm_num) (by norm_num)
      (by norm_num) (by norm_num)
  have h6 : mathRound (((6459850715509555 : ℤ) : ℚ) * (2 : ℚ) ^ (-44 : ℤ)) = 367 :=
    mathRound_eq (by norm_num) (by norm_num)
  have h7 : toBinary64 ((((367 : ℤ) : ℤ) : ℚ) / 100) = (((8264105316224860 : ℤ) : ℚ) * (2 : ℚ) ^ (-51 : ℤ)) :=
    toBinary64_eq (by norm_num) (by norm_num) (by norm_num) (by norm_num)
      (by norm_num) (by norm_num)
  have h8 : round2Binary64 (((8268608915852230 : ℤ) : ℚ) * (2 : ℚ) ^ (-51 : ℤ)) = (((8264105316224860 : ℤ) : ℚ) * (2 : ℚ) ^ (-51 : ℤ)) :=
    round2Binary64_eval h5 h6 h7
  have h9 : toBinary64 ((((6890507429876859 : ℤ) : ℚ) * (2 : ℚ) ^ (-49 : ℤ)) - (((8264105316224860 : ℤ) : ℚ) * (2 : ℚ) ^ (-51 : ℤ))) = (((4824481100820644 : ℤ) : ℚ) * (2 : ℚ) ^ (-49 : ℤ)) :=
    toBinary64_eq (by norm_num) (by norm_num) (by norm_num) (by norm_num)
      (by norm_num) (by norm_num)
  have h10 : toBinary64 ((((4824481100820644 : ℤ) : ℚ) * (2 : ℚ) ^ (-49 : ℤ)) * 100) = (((7538251720032256 : ℤ) : ℚ) * (2 : ℚ) ^ (-43 : ℤ)) :=
    toBinary64_eq (by norm_num) (by norm_num) (by norm_num) (by norm_num)
      (by norm_num) (by norm_num)
  have h11 : mathRound (((7538251720032256 : ℤ) : ℚ) * (2 : ℚ) ^ (-43 : ℤ)) = 857 :=
    mathRound_eq (by norm_num) (by norm_num)
  have h12 : toBinary64 ((((857 : ℤ) : ℤ) : ℚ) / 100) = (((4824481100820644 : ℤ) : ℚ) * (2 : ℚ) ^ (-49 : ℤ)) :=
    toBinary64_eq (by norm_num) (by norm_num) (by norm_num) (by norm_num)
      (by norm_num) (by norm_num)
  have h13 : round2Binary64 (((4824481100820644 : ℤ) : ℚ) * (2 : ℚ) ^ (-49 : ℤ)) = (((4824481100820644 : ℤ) : ℚ) * (2 : ℚ) ^ (-49 : ℤ)) :=
    round2Binary64_eval h10 h11 h12
  have e857 : toBinary64 (857 / 100) = (((4824481100820644 : ℤ) : ℚ) * (2 : ℚ) ^ (-49 : ℤ)) :=
    toBinary64_eq (by norm_num) (by norm_num) (by norm_num) (by norm_num)
      (by norm_num) (by norm_num)
  have hcredit₁ : toBinary64 (0 + (((4824481100820644 : ℤ) : ℚ) * (2 : ℚ) ^ (-49 : ℤ))) = (((4824481100820644 : ℤ) : ℚ) * (2 : ℚ) ^ (-49 : ℤ)) :=
    toBinary64_eq (by norm_num) (by norm_num) (by norm_num) (by norm_num)
      (by norm_num) (by norm_num)
  have htotal₂ : toBinary64 (((3 : ℤ) : ℚ) * (40 : ℚ)) = (((8444249301319680 : ℤ) : ℚ) * (2 : ℚ) ^ (-46 : ℤ)) :=
    toBinary64_eq (by norm_num) (by norm_num) (by norm_num) (by norm_num)
      (by norm_num) (by norm_num)
  have h17 : toBinary64 ((((8444249301319680 : ℤ) : ℚ) * (2 : ℚ) ^ (-46 : ℤ)) * (((5404319552844595 : ℤ) : ℚ) * (2 : ℚ) ^ (-54 : ℤ))) = (((5066549580791808 : ℤ) : ℚ) * (2 : ℚ) ^ (-47 : ℤ)) :=
    toBinary64_eq (by norm_num) (by norm_num) (by norm_num) (by norm_num)
      (by norm_num) (by norm_num)
  have h18 : toBinary64 ((((5066549580791808 : ℤ) : ℚ) * (2 : ℚ) ^ (-47 : ℤ)) * 100) = (((7916483719987200 : ℤ) : ℚ) * (2 : ℚ) ^ (-41 : ℤ)) :=
    toBinary64_eq (by norm_num) (by norm_num) (by norm_num) (by norm_num)
      (by norm_num) (by norm_num)
  have h19 : mathRound (((7916483719987200 : ℤ) : ℚ) * (2 : ℚ) ^ (-41 : ℤ)) = 3600 :=
    mathRound_eq (by norm_num) (by norm_num)
  have h20 : toBinary64 ((((3600 : ℤ) : ℤ) : ℚ) / 100) = (((5066549580791808 : ℤ) : ℚ) * (2 : ℚ) ^ (-47 : ℤ)) :=
    toBinary64_eq (by norm_num) (by norm_num) (by norm_num) (by norm_num)
      (by norm_num) (by norm_num)
  have h21 : round2Binary64 (((5066549580791808 : ℤ) : ℚ) * (2 : ℚ) ^ (-47 : ℤ)) = (((5066549580791808 : ℤ) : ℚ) * (2 : ℚ) ^ (-47 : ℤ)) :=
    round2Binary64_eval h18 h19 h20
  have h22 : toBinary64 ((((8444249301319680 : ℤ) : ℚ) * (2 : ℚ) ^ (-46 : ℤ)) - (((5066549580791808 : ℤ) : ℚ) * (2 : ℚ) ^ (-47 : ℤ))) = (((5910974510923776 : ℤ) : ℚ) * (2 : ℚ) ^ (-46 : ℤ)) :=
    toBinary64_eq (by norm_num) (by norm_num) (by norm_num) (by norm_num)
      (by norm_num) (by norm_num)
  have h23 : toBinary64 ((((5910974510923776 : ℤ) : ℚ) * (2 : ℚ) ^ (-46 : ℤ)) * 100) = (((4617948836659200 : ℤ) : ℚ) * (2 : ℚ) ^ (-39 : ℤ)) :=
    toBinary64_eq (by norm_num) (by norm_num) (by norm_num) (by norm_num)
      (by norm_num) (by norm_num)
  have h24 : mathRound (((4617948836659200 : ℤ) : ℚ) * (2 : ℚ) ^ (-39 : ℤ)) = 8400 :=
    mathRound_eq (by norm_num) (by norm_num)
  have h25 : toBinary64 ((((8400 : ℤ) : ℤ) : ℚ) / 100) = (((5910974510923776 : ℤ) : ℚ) * (2 : ℚ) ^ (-46 : ℤ)) :=
    toBinary64_eq (by norm_num) (by norm_num) (by norm_num) (by norm_num)
      (by norm_num) (by norm_num)
  have h26 : round2Binary64 (((5910974510923776 : ℤ) : ℚ) * (2 : ℚ) ^ (-46 : ℤ)) = (((5910974510923776 : ℤ) : ℚ) * (2 : ℚ) ^ (-46 : ℤ)) :=
    round2Binary64_eval h23 h24 h25
  have hcredit₂ : toBinary64 ((((4824481100820644 : ℤ) : ℚ) * (2 : ℚ) ^ (-49 : ℤ)) + 84) = (((6514034648526356 : ℤ) : ℚ) * (2 : ℚ) ^ (-46 : ℤ)) :=
    toBinary64_tie_down (by norm_num) (by norm_num) (by norm_num) (by norm_num)
      (by norm_num) (by norm_num)
  have hreverse : toBinary64 ((((6514034648526356 : ℤ) : ℚ) * (2 : ℚ) ^ (-46 : ℤ)) - 84) = (((4824481100820640 : ℤ) : ℚ) * (2 : ℚ) ^ (-49 : ℤ)) :=
    toBinary64_eq (by norm_num) (by norm_num) (by norm_num) (by norm_num)
      (by norm_num) (by norm_num)
  have h84 : (((5910974510923776 : ℤ) : ℚ) * (2 : ℚ) ^ (-46 : ℤ)) = 84 := by norm_num
  have hfirst : ownerEarningsBinary64 (totalAmountBinary64 1 (toBinary64 (1224 / 100)))
      (platformCommissionBinary64 (toBinary64 COMMISSION_RATE)
        (totalAmountBinary64 1 (toBinary64 (1224 / 100)))) = toBinary64 (857 / 100) := by
    unfold ownerEarningsBinary64 platformCommissionBinary64 totalAmountBinary64
    rw [hprice, htotal₁, hrate, h4, h8, h9, h13, e857]
  have hsecond : ownerEarningsBinary64 (totalAmountBinary64 3 40)
      (platformCommissionBinary64 (toBinary64 COMMISSION_RATE) (totalAmountBinary64 3 40))
        = 84 := by
    unfold ownerEarningsBinary64 platformCommissionBinary64 totalAmountBinary64
    rw [htotal₂, hrate, h17, h21, h22, h26, h84]
  have hc₁ : creditBinary64 0 (toBinary64 (857 / 100)) = toBinary64 (857 / 100) := by
    unfold creditBinary64
    rw [e857, hcredit₁]
  have hback : reverseBinary64 (creditBinary64 (toBinary64 (857 / 100)) 84) 84
      = (((4824481100820640 : ℤ) : ℚ) * (2 : ℚ) ^ (-49 : ℤ)) := by
    unfold reverseBinary64 creditBinary64
    rw [e857, hcredit₂, hreverse]
    exact max_eq_right (by norm_num)
  refine ⟨hfirst, hc₁, hsecond, ?_, ?_⟩
  · rw [hback, e857]
    norm_num
  · rw [hback, e857]
    norm_num

end Parkitech
